import Mathlib

/-!
# zparser.c: the master zone file parser

A shallow embedding of `src/zparser.c`.  Bytes are natural numbers, a C string
is the list of its bytes without the terminating NUL, a `NULL` pointer is
`none`.  Functions that change the parser take the parser and give back the
changed one; `abort()` and invalid memory accesses are faults of the monad `M`,
which also carries the two process globals the code touches, `errno` and the
standard error stream.
-/

namespace Zparser

/-! ## Bytes and C strings -/

/-- The bytes of a string literal: a C string without its terminating NUL. -/
def str (s : String) : List Nat := s.toList.map Char.toNat

/-- The byte of a character literal. -/
abbrev ch (c : Char) : Nat := c.toNat

/-- The double quote character. -/
abbrev QUOTE : Nat := 34

/-- The C string that starts a byte list: the bytes before the first NUL. -/
def cstr : List Nat → List Nat
  | [] => []
  | c :: cs => if c = 0 then [] else c :: cstr cs

/-- Store `v` at index `i` of an array whose cells beyond the list hold `d`. -/
def poke {α : Type} (d : α) : List α → Nat → α → List α
  | [], 0, v => [v]
  | [], i + 1, v => d :: poke d [] i v
  | _ :: xs, 0, v => v :: xs
  | x :: xs, i + 1, v => x :: poke d xs i v

/-- The function `isdigit` of ctype.h in the C locale. -/
def isdigit (c : Nat) : Bool := decide (ch '0' ≤ c) && decide (c ≤ ch '9')

/-- The function `isspace` of ctype.h in the C locale. -/
def isspace (c : Nat) : Bool := c == 32 || (decide (9 ≤ c) && decide (c ≤ 13))

/-- The function `tolower` of ctype.h in the C locale. -/
def tolower (c : Nat) : Nat := if ch 'A' ≤ c ∧ c ≤ ch 'Z' then c + 32 else c

/-- The test `strcasecmp(a, b) == 0`. -/
def strcasecmp (a b : List Nat) : Bool := a.map tolower == b.map tolower

/-- The test `strncasecmp(a, b, n) == 0`. -/
def strncasecmp (a b : List Nat) (n : Nat) : Bool := strcasecmp (a.take n) (b.take n)

/-- The digits loop of `strtol` in base 10: the value read and the rest. -/
def strtol_digits : List Nat → Nat → Nat × List Nat
  | [], acc => (acc, [])
  | c :: cs, acc => if isdigit c then strtol_digits cs (acc * 10 + (c - ch '0')) else (acc, c :: cs)

/-- The white space `strtol` skips before the number. -/
def strtol_skip : List Nat → List Nat
  | [] => []
  | c :: cs => if isspace c then strtol_skip cs else c :: cs

/-- The library function `strtol(nptr, &t, 10)` for a `long` whose largest value
is `LONG_MAX`: the value, the string left at `t`, and whether `errno` is set to
`ERANGE`.  Without digits nothing is consumed and the value is 0. -/
def strtol (LONG_MAX : Nat) (nptr : List Nat) : Int × List Nat × Bool :=
  let s := strtol_skip nptr
  let neg := s.head? == some (ch '-')
  let body := if s.head? == some (ch '-') ∨ s.head? == some (ch '+') then s.tail else s
  if (body.head?.map isdigit) == some true then
    let (v, rest) := strtol_digits body 0
    if neg then
      if v > LONG_MAX + 1 then (-((LONG_MAX : Int) + 1), rest, true) else (-(v : Int), rest, false)
    else
      if v > LONG_MAX then ((LONG_MAX : Int), rest, true) else ((v : Int), rest, false)
  else (0, nptr, false)

/-- The value `ERANGE` of errno.h. -/
def ERANGE : Nat := 34

/-- The value `ENOENT` of errno.h. -/
def ENOENT : Nat := 2

/-! ## Symbol tables -/

/-- An entry of a symbol table: `struct ztab`. -/
structure ztab where
  sym : Nat
  name : List Nat
deriving DecidableEq, Repr

/-- Looks up the numeric value of the symbol, returns 0 if not found. -/
def intbyname (a : List Nat) : List ztab → Nat
  | [] => 0
  | e :: tab => if strcasecmp a e.name then e.sym else intbyname a tab

/-! ## strtottl -/

/-- The value `(sign == -1) ? -seconds : seconds`. -/
def strtottl_ret (sign seconds : Int) : Int := if sign = -1 then -seconds else seconds

/-- The loop of `strtottl` over the string at `*endptr`, with the locals `sign`,
`i` and `seconds`: the value returned and the string left at `*endptr`.  The
arithmetic is that of unbounded integers (the code does not check the range). -/
def strtottl_loop : List Nat → Int → Int → Int → Int × List Nat
  | [], sign, i, seconds => (strtottl_ret sign (seconds + i), [])
  | c :: cs, sign, i, seconds =>
    if c = ch ' ' ∨ c = ch '\t' then strtottl_loop cs sign i seconds
    else if c = ch '-' then
      if sign = 0 then strtottl_loop cs (-1) i seconds
      else (strtottl_ret sign seconds, c :: cs)
    else if c = ch '+' then
      if sign = 0 then strtottl_loop cs 1 i seconds
      else (strtottl_ret sign seconds, c :: cs)
    else if c = ch 's' ∨ c = ch 'S' then strtottl_loop cs sign 0 (seconds + i)
    else if c = ch 'm' ∨ c = ch 'M' then strtottl_loop cs sign 0 (seconds + i * 60)
    else if c = ch 'h' ∨ c = ch 'H' then strtottl_loop cs sign 0 (seconds + i * 60 * 60)
    else if c = ch 'd' ∨ c = ch 'D' then strtottl_loop cs sign 0 (seconds + i * 60 * 60 * 24)
    else if c = ch 'w' ∨ c = ch 'W' then
      strtottl_loop cs sign 0 (seconds + i * 60 * 60 * 24 * 7)
    else if isdigit c then strtottl_loop cs sign (i * 10 + ((c : Int) - (ch '0' : Nat))) seconds
    else (strtottl_ret sign (seconds + i), c :: cs)

/-- Converts a string representation of a period of time into seconds; the
second component is the string at the end pointer. -/
def strtottl (nptr : List Nat) : Int × List Nat := strtottl_loop nptr 0 0 0

/-- The value `x` as a value of a `long` whose largest value is `LONG_MAX`;
`none` when it lies outside the range, a signed overflow, which C leaves
undefined. -/
def as_long (LONG_MAX : Nat) (x : Int) : Option Int :=
  if -(LONG_MAX : Int) - 1 ≤ x ∧ x ≤ LONG_MAX then some x else none

/-- The loop of `strtottl` in the arithmetic of a `long` whose largest value is
`LONG_MAX`: every sum, product and negation the code computes is taken as a
`long`, and the result is `none` when one of them overflows. -/
def strtottl_long_loop (LONG_MAX : Nat) : List Nat → Int → Int → Int → Option (Int × List Nat)
  | [], sign, i, seconds => do
    let seconds ← as_long LONG_MAX (seconds + i)
    let r ← as_long LONG_MAX (strtottl_ret sign seconds)
    pure (r, [])
  | c :: cs, sign, i, seconds =>
    if c = ch ' ' ∨ c = ch '\t' then strtottl_long_loop LONG_MAX cs sign i seconds
    else if c = ch '-' then
      if sign = 0 then strtottl_long_loop LONG_MAX cs (-1) i seconds
      else do
        let r ← as_long LONG_MAX (strtottl_ret sign seconds)
        pure (r, c :: cs)
    else if c = ch '+' then
      if sign = 0 then strtottl_long_loop LONG_MAX cs 1 i seconds
      else do
        let r ← as_long LONG_MAX (strtottl_ret sign seconds)
        pure (r, c :: cs)
    else if c = ch 's' ∨ c = ch 'S' then do
      let seconds ← as_long LONG_MAX (seconds + i)
      strtottl_long_loop LONG_MAX cs sign 0 seconds
    else if c = ch 'm' ∨ c = ch 'M' then do
      let a ← as_long LONG_MAX (i * 60)
      let seconds ← as_long LONG_MAX (seconds + a)
      strtottl_long_loop LONG_MAX cs sign 0 seconds
    else if c = ch 'h' ∨ c = ch 'H' then do
      let a ← as_long LONG_MAX (i * 60)
      let a ← as_long LONG_MAX (a * 60)
      let seconds ← as_long LONG_MAX (seconds + a)
      strtottl_long_loop LONG_MAX cs sign 0 seconds
    else if c = ch 'd' ∨ c = ch 'D' then do
      let a ← as_long LONG_MAX (i * 60)
      let a ← as_long LONG_MAX (a * 60)
      let a ← as_long LONG_MAX (a * 24)
      let seconds ← as_long LONG_MAX (seconds + a)
      strtottl_long_loop LONG_MAX cs sign 0 seconds
    else if c = ch 'w' ∨ c = ch 'W' then do
      let a ← as_long LONG_MAX (i * 60)
      let a ← as_long LONG_MAX (a * 60)
      let a ← as_long LONG_MAX (a * 24)
      let a ← as_long LONG_MAX (a * 7)
      let seconds ← as_long LONG_MAX (seconds + a)
      strtottl_long_loop LONG_MAX cs sign 0 seconds
    else if isdigit c then do
      let a ← as_long LONG_MAX (i * 10)
      let i ← as_long LONG_MAX (a + ((c : Int) - (ch '0' : Nat)))
      strtottl_long_loop LONG_MAX cs sign i seconds
    else do
      let seconds ← as_long LONG_MAX (seconds + i)
      let r ← as_long LONG_MAX (strtottl_ret sign seconds)
      pure (r, c :: cs)

/-- The function `strtottl` in the arithmetic of a `long` whose largest value is
`LONG_MAX`; `none` when a value overflows. -/
def strtottl_long (LONG_MAX : Nat) (nptr : List Nat) : Option (Int × List Nat) :=
  strtottl_long_loop LONG_MAX nptr 0 0 0

/-! ## The parser structure and its environment -/

/-- What lies outside `zparser.c`: the constants and tables of the headers, the
name encoder, the library decoders, the files that can be opened and the
properties of the platform. -/
structure Env where
  /-- The table `Z_TYPES` of zparser.h. -/
  ztypes : List ztab
  /-- The table `Z_CLASSES` of zparser.h. -/
  zclasses : List ztab
  /-- The size of the line buffer. -/
  ZBUFSIZE : Nat
  /-- The bound on the token counter. -/
  MAXTOKENSLEN : Nat
  /-- The bound on the rdata counter. -/
  MAXRDATALEN : Nat
  /-- The size of the buffer for base64 data. -/
  MAXRDATAELEMSIZE : Nat
  /-- The largest value of a `long`. -/
  LONG_MAX : Nat
  /-- Whether the host stores the most significant byte first. -/
  bigEndian : Bool
  /-- The value of the field `_rc` in a parser fresh from `xalloc`, which
  `_zopen` does not initialise. -/
  rc0 : Int
  /-- The content of a byte that `xalloc` returned and nothing has written. -/
  junk : Nat
  /-- The name encoder `strdname(s, origin)` of dname.c; `none` is `NULL`. -/
  strdname : List Nat → Option (List Nat) → Option (List Nat)
  /-- The decoder of an IPv4 address (`inet_aton`, or `inet_addr` without it):
  the four bytes in network order, `none` when it reports failure. -/
  inet_aton : List Nat → Option (List Nat)
  /-- The decoder `inet_pton(AF_INET6, s, dst)`: the sixteen bytes, `none` when
  the result is not 1. -/
  inet_pton6 : List Nat → Option (List Nat)
  /-- The decoder `loc_aton(s, dst)` of rfc1876.c: the `LOCRDLEN` bytes, `none`
  when the result is not `LOCRDLEN`. -/
  loc_aton : List Nat → Option (List Nat)
  /-- The decoder `__b64_pton(src, target, targsize)`: the bytes written, `none`
  when the result is -1. -/
  b64_pton : List Nat → Nat → Option (List Nat)
  /-- The content of the file `fopen(filename, "r")` opens, `none` when it
  fails. -/
  fopen : List Nat → Option (List Nat)

/-- An element of the rdata list: a block that starts with a 16 bit length and
holds that many bytes, or the name `dnamedup` returned. -/
inductive rdata_t where
  | blob (len : Nat) (data : List Nat)
  | dname (d : List Nat)
deriving DecidableEq, Repr

/-- A resource record: `struct RR`.  The field `class_` is the field `class`. -/
structure RR where
  dname : Option (List Nat)
  ttl : Nat
  class_ : Nat
  type : Nat
  rdata : List (Option rdata_t)
deriving DecidableEq, Repr

/-- The parser: `struct zparser`.  `file` holds the bytes not read yet,
`include_` is the field `include`, `_t` holds the tokens as offsets into the line
buffer `_buf`. -/
structure zparser where
  filename : List Nat
  file : List Nat
  errors : Nat
  lines : Nat
  _lineno : Nat
  origin : Option (List Nat)
  ttl : Nat
  class_ : Nat
  include_ : Option zparser
  _rr : RR
  _rc : Int
  _tc : Nat
  _t : List (Option Nat)
  _buf : List Nat

/-- How a run leaves the defined behaviour of the program: `abort()`, an invalid
memory access, or the model running out of fuel. -/
inductive Fault where
  | abort
  | segv
  | fuel
deriving DecidableEq, Repr

/-- A line on the standard error stream: the message of `zerror`, the file name
and the line number. -/
structure Diag where
  msg : String
  filename : List Nat
  lineno : Nat
deriving DecidableEq, Repr

/-- The process globals: `errno` and what was written to `stderr`. -/
structure World where
  errno : Nat
  stderr : List Diag
deriving DecidableEq, Repr

/-- Computations of the parser: they may change the globals and may fault. -/
abbrev M := StateT World (Except Fault)

/-- The byte at offset `i` of the line buffer. -/
def zparser.at (z : zparser) (i : Nat) : Nat := z._buf.getD i 0

/-- The token `z->_t[i]` as a string, `none` when the pointer is `NULL`. -/
def zparser.tok (z : zparser) (i : Nat) : Option (List Nat) :=
  (z._t.getD i none).map fun off => cstr (z._buf.drop off)

/-- The tokens `z->_t[0]` to `z->_t[n-1]`. -/
def zparser.toks (z : zparser) (n : Nat) : List (Option (List Nat)) :=
  (List.range n).map z.tok

/-- The byte `*z->_t[i]`; the access is invalid when the pointer is `NULL`. -/
def zparser.deref (z : zparser) (i : Nat) : M Nat :=
  match z.tok i with
  | none => throw Fault.segv
  | some s => pure (s.headD 0)

/-- Prints the message with the file name and line number, and increments the
number of errors of the file. -/
def zerror (z : zparser) (msg : String) : M zparser := do
  modify fun w => { w with stderr := w.stderr ++ [⟨msg, z.filename, z._lineno⟩] }
  pure { z with errors := z.errors + 1 }

/-- Prints the syntax error message. -/
def zsyntax (z : zparser) : M zparser := zerror z "syntax error"

/-- Prints the unexpected end of line message. -/
def zunexpected (z : zparser) : M zparser := zerror z "unexpected end of line"

/-! ## The tokenizer -/

/-- Adds a token to the current line and increments the token counter; dies
when the counter has reached `MAXTOKENSLEN`. -/
def zaddtoken (env : Env) (z : zparser) (t : Option Nat) : M zparser := do
  if z._tc ≥ env.MAXTOKENSLEN then
    let _ ← zerror z "too many token per entry"
    throw Fault.abort
  pure { z with _t := poke none z._t z._tc t, _tc := z._tc + 1 }

/-- The library function `fgets` reading at most `n` bytes of a line. -/
def fgets_take : Nat → List Nat → List Nat × List Nat
  | 0, f => ([], f)
  | _ + 1, [] => ([], [])
  | n + 1, c :: cs =>
    if c = ch '\n' then ([c], cs)
    else ((c :: (fgets_take n cs).1), (fgets_take n cs).2)

/-- The library function `fgets(line, size, file)`: the bytes stored before the
NUL and the rest of the file, `none` at the end of the file. -/
def fgets (size : Nat) (file : List Nat) : Option (List Nat × List Nat) :=
  match file with
  | [] => none
  | _ :: _ => some (fgets_take (size - 1) file)

/-- The loop `for(s = p; *s == ' ' || *s == '\t' || *s == '\n'; s++);`. -/
def skip_delims (z : zparser) : Nat → Nat → Nat
  | 0, s => s
  | fuel + 1, s =>
    if z.at s = ch ' ' ∨ z.at s = ch '\t' ∨ z.at s = ch '\n' then skip_delims z fuel (s + 1)
    else s

/-- The loop `for(t = ++s; *t && *t != '"'; t++);` from `t`. -/
def find_quote (z : zparser) : Nat → Nat → Nat
  | 0, t => t
  | fuel + 1, t => if z.at t ≠ 0 ∧ z.at t ≠ QUOTE then find_quote z fuel (t + 1) else t

/-- The `default: t++; continue;` steps of the search for the next delimiter. -/
def find_delim (z : zparser) : Nat → Nat → Nat
  | 0, t => t
  | fuel + 1, t =>
    if z.at t = ch '(' ∨ z.at t = ch ')' ∨ z.at t = ch ';' ∨ z.at t = ch '\n' ∨
        z.at t = ch ' ' ∨ z.at t = ch '\t' ∨ z.at t = 0 then t
    else find_delim z fuel (t + 1)

/-- The locals `parenthes` and `newline` of `zparseline`. -/
structure Locals where
  parenthes : Bool
  newline : Nat
deriving DecidableEq, Repr

/-- The loop `while(*p)` of `zparseline` over one physical line, from the
offset `p`.  The result is `none` when the function returns -1 inside the
loop. -/
def zparseline_scan (env : Env) : Nat → zparser → Nat → Locals → M (zparser × Option Locals)
  | 0, _, _, _ => throw Fault.fuel
  | fuel + 1, z, p, l =>
    if z.at p = 0 then pure (z, some l)
    else
      let s := skip_delims z (z._buf.length) p
      if z.at s = QUOTE then
        let s := s + 1
        let t := find_quote z (z._buf.length) s
        if z.at t ≠ 0 then do
          let z ← zaddtoken env { z with _buf := poke 0 z._buf t 0 } (some s)
          zparseline_scan env fuel z (t + 1) l
        else do
          let z ← zerror z "unterminated quoted string"
          pure (z, none)
      else
        let t := find_delim z (z._buf.length) s
        let c := z.at t
        if c = ch '(' then
          if l.parenthes then do
            let z ← zerror z "nested parenthes"
            pure (z, none)
          else
            zparseline_scan env fuel { z with _buf := poke 0 z._buf t 0 } (t + 1)
              { l with parenthes := true }
        else if c = ch ')' then
          if !l.parenthes then do
            let z ← zerror z "missing opening parenthes"
            pure (z, none)
          else
            zparseline_scan env fuel { z with _buf := poke 0 z._buf t 0 } (t + 1)
              { l with parenthes := false }
        else if c = ch ';' then
          zparseline_scan env fuel { z with _buf := poke 0 z._buf t 0 } t
            { l with newline := l.newline + 1 }
        else if c = ch '\n' ∨ c = ch ' ' ∨ c = ch '\t' then do
          let l := if c = ch '\n' then { l with newline := l.newline + 1 } else l
          let z ← zaddtoken env { z with _buf := poke 0 z._buf t 0 } (some s)
          zparseline_scan env fuel z (t + 1) l
        else do
          let z ← zaddtoken env z (some s)
          zparseline_scan env fuel z t l

/-- The loop `while((p = fgets(...)) != NULL)` of `zparseline` with the local
`parenthes`, and the code after it: the parser and the value returned. -/
def zparseline_loop (env : Env) : Nat → zparser → Bool → M (zparser × Int)
  | 0, _, _ => throw Fault.fuel
  | fuel + 1, z, parenthes =>
    match fgets env.ZBUFSIZE z.file with
    | none => do
      if (← get).errno ≠ 0 then
        let z ← zerror z "error reading file"
        pure (z, -1)
      else if parenthes then
        let z ← zerror z "end of file within parenthes"
        pure (z, -1)
      else pure (z, 0)
    | some (line, rest) => do
      let z := { z with file := rest, _buf := line ++ 0 :: z._buf.drop (line.length + 1),
                        lines := z.lines + 1, _lineno := z._lineno + 1 }
      let (z, p) ←
        if !parenthes ∧ (z.at 0 = ch ' ' ∨ z.at 0 = ch '\t') then do
          let z ← zaddtoken env { z with _buf := poke 0 z._buf 0 (ch ' ') } (some 0)
          pure (z, 1)
        else pure (z, 0)
      match ← zparseline_scan env (z._buf.length + 1) z p ⟨parenthes, 0⟩ with
      | (z, none) => pure (z, -1)
      | (z, some l) =>
        if l.newline = 0 then do
          let z ← zerror z "truncated line, possibly insufficient buffer size"
          pure (z, -1)
        else if z._tc = 0 then zparseline_loop env fuel z l.parenthes
        else if l.parenthes then zparseline_loop env fuel z l.parenthes
        else do
          let z ← zaddtoken env z none
          pure ({ z with _tc := z._tc - 1 }, ((z._tc - 1 : Nat) : Int))

/-- Parses a line from an open zone file, and splits it into tokens.  Returns
the number of tokens read, zero at the end of the file, -1 on error. -/
def zparseline (env : Env) (z : zparser) : M (zparser × Int) :=
  zparseline_loop env (z.file.length + 1) { z with _tc := 0 } false

/-! ## The rdata parsers -/

/-- Modelled from the spec: the type code of A in dns.h, which is not under
src/; the code of the RFC that defines the type. -/
def TYPE_A : Nat := 1

/-- Modelled from the spec: the type code of NS in dns.h, which is not under
src/; the code of the RFC that defines the type. -/
def TYPE_NS : Nat := 2

/-- Modelled from the spec: the type code of MD in dns.h, which is not under
src/; the code of the RFC that defines the type. -/
def TYPE_MD : Nat := 3

/-- Modelled from the spec: the type code of MF in dns.h, which is not under
src/; the code of the RFC that defines the type. -/
def TYPE_MF : Nat := 4

/-- Modelled from the spec: the type code of CNAME in dns.h, which is not under
src/; the code of the RFC that defines the type. -/
def TYPE_CNAME : Nat := 5

/-- Modelled from the spec: the type code of SOA in dns.h, which is not under
src/; the code of the RFC that defines the type. -/
def TYPE_SOA : Nat := 6

/-- Modelled from the spec: the type code of MB in dns.h, which is not under
src/; the code of the RFC that defines the type. -/
def TYPE_MB : Nat := 7

/-- Modelled from the spec: the type code of MG in dns.h, which is not under
src/; the code of the RFC that defines the type. -/
def TYPE_MG : Nat := 8

/-- Modelled from the spec: the type code of MR in dns.h, which is not under
src/; the code of the RFC that defines the type. -/
def TYPE_MR : Nat := 9

/-- Modelled from the spec: the type code of NULL in dns.h, which is not under
src/; the code of the RFC that defines the type. -/
def TYPE_NULL : Nat := 10

/-- Modelled from the spec: the type code of WKS in dns.h, which is not under
src/; the code of the RFC that defines the type. -/
def TYPE_WKS : Nat := 11

/-- Modelled from the spec: the type code of PTR in dns.h, which is not under
src/; the code of the RFC that defines the type. -/
def TYPE_PTR : Nat := 12

/-- Modelled from the spec: the type code of HINFO in dns.h, which is not under
src/; the code of the RFC that defines the type. -/
def TYPE_HINFO : Nat := 13

/-- Modelled from the spec: the type code of MINFO in dns.h, which is not under
src/; the code of the RFC that defines the type. -/
def TYPE_MINFO : Nat := 14

/-- Modelled from the spec: the type code of MX in dns.h, which is not under
src/; the code of the RFC that defines the type. -/
def TYPE_MX : Nat := 15

/-- Modelled from the spec: the type code of TXT in dns.h, which is not under
src/; the code of the RFC that defines the type. -/
def TYPE_TXT : Nat := 16

/-- Modelled from the spec: the type code of RP in dns.h, which is not under
src/; the code of the RFC that defines the type. -/
def TYPE_RP : Nat := 17

/-- Modelled from the spec: the type code of AFSDB in dns.h, which is not under
src/; the code of the RFC that defines the type. -/
def TYPE_AFSDB : Nat := 18

/-- Modelled from the spec: the type code of SIG in dns.h, which is not under
src/; the code of the RFC that defines the type. -/
def TYPE_SIG : Nat := 24

/-- Modelled from the spec: the type code of AAAA in dns.h, which is not under
src/; the code of the RFC that defines the type. -/
def TYPE_AAAA : Nat := 28

/-- Modelled from the spec: the type code of LOC in dns.h, which is not under
src/; the code of the RFC that defines the type. -/
def TYPE_LOC : Nat := 29

/-- Modelled from the spec: the type code of SRV in dns.h, which is not under
src/; the code of the RFC that defines the type. -/
def TYPE_SRV : Nat := 33

/-- Modelled from the spec: the type code of NAPTR in dns.h, which is not under
src/; the code of the RFC that defines the type. -/
def TYPE_NAPTR : Nat := 35

/-- Modelled from the spec: the class code of IN in dns.h, which is not under
src/; the spec gives class 1 for IN. -/
def CLASS_IN : Nat := 1

/-- Modelled from the spec: the length of the rdata of a LOC record of
RFC 1876 in rfc1876.h, which is not under src/. -/
def LOCRDLEN : Nat := 16

/-- Modelled from the spec: the length of an IPv6 address in zparser.h, which
is not under src/; the spec gives 16 for the length of the field. -/
def IP6ADDRLEN : Nat := 16

/-- The `n` low bytes of `v`, least significant first. -/
def bytes_le : Nat → Nat → List Nat
  | 0, _ => []
  | n + 1, v => v % 256 :: bytes_le n (v / 256)

/-- The `n` bytes that a store of the integer `v` leaves in memory. -/
def host_bytes (env : Env) (n v : Nat) : List Nat :=
  if env.bigEndian then (bytes_le n v).reverse else bytes_le n v

/-- Adds an rdata pointer to the rdata pointer list and increments the rdata
counter; dies when the counter has reached `MAXRDATALEN`.  A store before the
start of the list is an invalid access. -/
def zaddrdata (env : Env) (z : zparser) (r : Option rdata_t) : M zparser := do
  if z._rc ≥ env.MAXRDATALEN then
    let _ ← zerror z "too many rdata elements"
    throw Fault.abort
  if z._rc + 1 < 0 then throw Fault.segv
  pure { z with _rr := { z._rr with rdata := poke none z._rr.rdata (z._rc + 1).toNat r },
                _rc := z._rc + 1 }

/-- The call of `strtol` in the decimal parsers, with its effect on `errno`. -/
def strtol_call (env : Env) (s : List Nat) : M (Int × List Nat) := do
  let r := strtol env.LONG_MAX s
  if r.2.2 then modify fun w => { w with errno := ERANGE }
  pure (r.1, r.2.1)

/-- Parses a 16 bit decimal value. -/
def zrdata_short (env : Env) (z : zparser) : M (zparser × Int) := do
  match z.tok z._tc with
  | none =>
    let z ← zunexpected z
    pure (z, 0)
  | some s =>
    let (v, t) ← strtol_call env s
    if t ≠ [] then
      let z ← zerror z "unsigned short value is expected"
      pure (z, 0)
    else
      let z ← zaddrdata env z (some (rdata_t.blob 2 (host_bytes env 2 (v % 2 ^ 16).toNat)))
      pure ({ z with _tc := z._tc + 1 }, 1)

/-- Parses a 32 bit decimal value. -/
def zrdata_long (env : Env) (z : zparser) : M (zparser × Int) := do
  match z.tok z._tc with
  | none =>
    let z ← zunexpected z
    pure (z, 0)
  | some s =>
    let (v, t) ← strtol_call env s
    if t ≠ [] then
      let z ← zerror z "long decimal value is expected"
      pure (z, 0)
    else
      let z ← zaddrdata env z (some (rdata_t.blob 4 (host_bytes env 4 (v % 2 ^ 32).toNat)))
      pure ({ z with _tc := z._tc + 1 }, 1)

/-- Parses an 8 bit decimal value. -/
def zrdata_byte (env : Env) (z : zparser) : M (zparser × Int) := do
  match z.tok z._tc with
  | none =>
    let z ← zunexpected z
    pure (z, 0)
  | some s =>
    let (v, t) ← strtol_call env s
    if t ≠ [] then
      let z ← zerror z "decimal value is expected"
      pure (z, 0)
    else
      let z ← zaddrdata env z (some (rdata_t.blob 1 (host_bytes env 1 (v % 2 ^ 8).toNat)))
      pure ({ z with _tc := z._tc + 1 }, 1)

/-- Parses an IPv4 address. -/
def zrdata_a (env : Env) (z : zparser) : M (zparser × Int) := do
  match z.tok z._tc with
  | none =>
    let z ← zunexpected z
    pure (z, 0)
  | some s =>
    match env.inet_aton s with
    | none =>
      let z ← zerror z "invalid ip address"
      pure (z, 0)
    | some a =>
      let z ← zaddrdata env z (some (rdata_t.blob 4 a))
      pure ({ z with _tc := z._tc + 1 }, 1)

/-- Parses a domain name; `dnamedup` of `NULL` is `NULL`. -/
def zrdata_dname (env : Env) (z : zparser) : M (zparser × Int) := do
  match z.tok z._tc with
  | none =>
    let z ← zunexpected z
    pure (z, 0)
  | some s =>
    match env.strdname s z.origin with
    | none =>
      let z ← zerror z "invalid domain name"
      pure (z, 0)
    | some d =>
      let z ← zaddrdata env z (some (rdata_t.dname d))
      pure ({ z with _tc := z._tc + 1 }, 1)

/-- Parses a text string.  The block holds the 16 bit length `l + 1`; the
length octet is stored in the first byte after it, at `(char *)(r+1)`, and the
text is copied to `(char *)(r+2)`, two bytes further, so the byte between them
is never written and the last byte of the text lies beyond the `l + 1` bytes of
the element.  That last byte is also stored one byte beyond the block that
`xalloc` returned; the store is not taken as a fault here. -/
def zrdata_text (env : Env) (z : zparser) : M (zparser × Int) := do
  match z.tok z._tc with
  | none =>
    let z ← zunexpected z
    pure (z, 0)
  | some s =>
    if s.length > 255 then
      let z ← zerror z "text string is longer than 255 charaters, suggest split in two"
      pure (z, 0)
    else
      let z ← zaddrdata env z
        (some (rdata_t.blob (s.length + 1) (s.length :: (env.junk :: s).take s.length)))
      pure ({ z with _tc := z._tc + 1 }, 1)

/-- Parses an IPv6 address. -/
def zrdata_a6 (env : Env) (z : zparser) : M (zparser × Int) := do
  match z.tok z._tc with
  | none =>
    let z ← zunexpected z
    pure (z, 0)
  | some s =>
    match env.inet_pton6 s with
    | none =>
      let z ← zerror z "invalid ipv6 address"
      pure (z, 0)
    | some a =>
      let z ← zaddrdata env z (some (rdata_t.blob IP6ADDRLEN a))
      pure ({ z with _tc := z._tc + 1 }, 1)

/-- The loop of `zrdata_loc` that pastes the tokens from `tc` on into `buf`
with `strcpy`: the string in `buf` and the token counter after the loop. -/
def zrdata_loc_paste (z : zparser) : Nat → Nat → List Nat × Nat
  | 0, tc => ([], tc)
  | fuel + 1, tc =>
    match z.tok tc with
    | none => ([], tc)
    | some s => (s ++ (zrdata_loc_paste z fuel (tc + 1)).1, (zrdata_loc_paste z fuel (tc + 1)).2)

/-- Parses the rdata of a LOC record.  A string that does not fit the 512 bytes
of `buf` is an invalid access. -/
def zrdata_loc (env : Env) (z : zparser) : M (zparser × Int) := do
  match z.tok z._tc with
  | none =>
    let z ← zunexpected z
    pure (z, 0)
  | some _ =>
    let r := zrdata_loc_paste z z._t.length z._tc
    if r.1.length ≥ 512 then throw Fault.segv
    let z := { z with _tc := r.2 }
    match env.loc_aton r.1 with
    | none =>
      let z ← zerror z "LOC record data expected"
      pure (z, 0)
    | some d =>
      let z ← zaddrdata env z (some (rdata_t.blob LOCRDLEN d))
      pure (z, 1)

/-- The loop of `zrdata_b64` over the tokens, with the bytes written so far and
the local `s`; `none` when the function returns 0 inside the loop. -/
def zrdata_b64_loop (env : Env) : Nat → zparser → List Nat → Nat →
    M (zparser × Option (List Nat × Nat))
  | 0, _, _, _ => throw Fault.fuel
  | fuel + 1, z, acc, s =>
    match z.tok z._tc with
    | none => pure (z, some (acc, s))
    | some tok => do
      if s ≤ 0 then
        let z ← zerror z "out of buffer for base64 data"
        pure (z, none)
      else
        let z := { z with _tc := z._tc + 1 }
        match env.b64_pton tok s with
        | none =>
          let z ← zerror z "base64 encoding failed"
          pure (z, none)
        | some b => zrdata_b64_loop env fuel z (acc ++ b) (s - b.length)

/-- Parses base64 data from all the tokens left. -/
def zrdata_b64 (env : Env) (z : zparser) : M (zparser × Int) := do
  match z.tok z._tc with
  | none =>
    let z ← zunexpected z
    pure (z, 0)
  | some _ =>
    match ← zrdata_b64_loop env (z._t.length + 1) z [] env.MAXRDATAELEMSIZE with
    | (z, none) => pure (z, 0)
    | (z, some (acc, s)) =>
      let z ← zaddrdata env z (some (rdata_t.blob (env.MAXRDATAELEMSIZE - s) acc))
      pure ({ z with _tc := z._tc + 1 }, 1)

/-- The step `if(!f(z)) return 0;` followed by the rest `g`. -/
def orReturn0 (f : M (zparser × Int)) (g : zparser → M (zparser × Int)) : M (zparser × Int) := do
  let (z, r) ← f
  if r = 0 then pure (z, 0) else g z

/-- The loop `while(zrdata_text(z)) { if(*z->_t[z->_tc] == NULL) return 1; }`
of the TXT case, and the `return 0` after it. -/
def zrdata_txt (env : Env) : Nat → zparser → M (zparser × Int)
  | 0, _ => throw Fault.fuel
  | fuel + 1, z => do
    let (z, r) ← zrdata_text env z
    if r ≠ 0 then
      let c ← z.deref z._tc
      if c = 0 then pure (z, 1) else zrdata_txt env fuel z
    else pure (z, 0)

/-- Parses the rdata portion of a resource record entry.  Returns the number of
elements parsed if successful, 0 if error. -/
def zrdata (env : Env) (z : zparser) : M (zparser × Int) := do
  if (← z.deref z._tc) = 0 then
    let z ← zsyntax z
    pure (z, 0)
  else if z.tok z._tc = some (str "\\#") then pure (z, 0)
  else if z._rr.type = TYPE_A then zrdata_a env z
  else if z._rr.type = TYPE_NS ∨ z._rr.type = TYPE_MD ∨ z._rr.type = TYPE_MF ∨
      z._rr.type = TYPE_CNAME ∨ z._rr.type = TYPE_MB ∨ z._rr.type = TYPE_MG ∨
      z._rr.type = TYPE_MR ∨ z._rr.type = TYPE_PTR then zrdata_dname env z
  else if z._rr.type = TYPE_MINFO ∨ z._rr.type = TYPE_RP then
    orReturn0 (zrdata_dname env z) fun z => zrdata_dname env z
  else if z._rr.type = TYPE_TXT then zrdata_txt env (z._t.length + 1) z
  else if z._rr.type = TYPE_SOA then
    orReturn0 (zrdata_dname env z) fun z =>
    orReturn0 (zrdata_dname env z) fun z =>
    orReturn0 (zrdata_long env z) fun z =>
    orReturn0 (zrdata_long env z) fun z =>
    orReturn0 (zrdata_long env z) fun z =>
    orReturn0 (zrdata_long env z) fun z => zrdata_long env z
  else if z._rr.type = TYPE_LOC then zrdata_loc env z
  else if z._rr.type = TYPE_HINFO then zrdata_text env z
  else if z._rr.type = TYPE_MX then
    orReturn0 (zrdata_short env z) fun z => zrdata_dname env z
  else if z._rr.type = TYPE_AAAA then zrdata_a6 env z
  else if z._rr.type = TYPE_SRV then
    orReturn0 (zrdata_short env z) fun z =>
    orReturn0 (zrdata_short env z) fun z =>
    orReturn0 (zrdata_short env z) fun z => zrdata_dname env z
  else if z._rr.type = TYPE_NAPTR then
    orReturn0 (zrdata_short env z) fun z =>
    orReturn0 (zrdata_short env z) fun z =>
    orReturn0 (zrdata_text env z) fun z =>
    orReturn0 (zrdata_text env z) fun z =>
    orReturn0 (zrdata_text env z) fun z => zrdata_dname env z
  else if z._rr.type = TYPE_AFSDB then
    orReturn0 (zrdata_short env z) fun z => zrdata_dname env z
  else if z._rr.type = TYPE_SIG then
    orReturn0 (zrdata_short env z) fun z =>
    orReturn0 (zrdata_byte env z) fun z =>
    orReturn0 (zrdata_byte env z) fun z =>
    orReturn0 (zrdata_long env z) fun z =>
    orReturn0 (zrdata_long env z) fun z =>
    orReturn0 (zrdata_long env z) fun z =>
    orReturn0 (zrdata_short env z) fun z =>
    orReturn0 (zrdata_dname env z) fun z => zrdata_b64 env z
  else if z._rr.type = TYPE_NULL then do
    let z ← zerror z "no rdata allowed for NULL resource record"
    pure (z, 0)
  else do
    let z ← zerror z "dont know how to parse this type, try UNKN representation"
    pure (z, -1)

/-! ## Opening, reading and closing -/

/-- The origin `(u_char *)"\001"` that `zopen` hands to `strdname`. -/
def ROOT : List Nat := [1, 0]

/-- Initializes the parser and opens a zone file; `none` with `errno` set when
the file cannot be opened.  The fields `_rc`, `_tc`, `_t` and `_buf` are not
initialised: `_tc`, `_t` and `_buf` are written before they are read, `_rc` is
what `xalloc` left there. -/
def _zopen (env : Env) (filename : List Nat) (ttl class_ : Nat) (origin : Option (List Nat)) :
    M (Option zparser) := do
  match env.fopen filename with
  | none =>
    modify fun w => { w with errno := ENOENT }
    pure none
  | some content =>
    pure (some { filename := filename, file := content, errors := 0, lines := 0, _lineno := 0,
                 origin := origin, ttl := ttl, class_ := class_, include_ := none,
                 _rr := ⟨none, 0, 0, 0, []⟩, _rc := env.rc0, _tc := 0, _t := [], _buf := [] })

/-- A wrapper for `_zopen`. -/
def zopen (env : Env) (filename : List Nat) (ttl class_ : Nat) (origin : List Nat) :
    M (Option zparser) :=
  _zopen env filename ttl class_ (env.strdname origin (some ROOT))

/-- How one round of the loop of `zread` ends: with `continue`, with
`return &z->_rr`, or with `return zread(z)` after an include was opened. -/
inductive Step where
  | again
  | ret
  | inc
deriving DecidableEq, Repr

/-- The loop `for(z->_tc = 1; z->_t[z->_tc] != NULL; z->_tc++)` of `zread` that
processes TTL, class and type, from the current value of `_tc`. -/
def zread_header (env : Env) : Nat → zparser → zparser
  | 0, z => z
  | fuel + 1, z =>
    match z.tok z._tc with
    | none => z
    | some s =>
      if isdigit (s.headD 0) then
        let z := { z with _rr := { z._rr with ttl := ((strtottl s).1 % 2 ^ 32).toNat } }
        if (strtottl s).2 ≠ [] then z
        else zread_header env fuel { z with _tc := z._tc + 1 }
      else
        let z := { z with _rr := { z._rr with class_ := intbyname s env.zclasses } }
        if z._rr.class_ = 0 then
          let z := { z with _rr := { z._rr with class_ := z.class_ } }
          if strncasecmp s (str "TYPE") 4 then
            { z with _rr := { z._rr with type :=
                ((strtol env.LONG_MAX (s.drop 4)).1 % 2 ^ 16).toNat } }
          else { z with _rr := { z._rr with type := intbyname s env.ztypes } }
        else zread_header env fuel { z with _tc := z._tc + 1 }

/-- The loop `while(z->_rc >= 0)` of `zread` that frees the rdata: the list
with the elements below `n` set to `NULL`. -/
def zread_free : List (Option rdata_t) → Nat → List (Option rdata_t)
  | rdata, 0 => rdata
  | rdata, n + 1 => zread_free (poke none rdata n none) n

/-- The part of the body of the loop of `zread` after the domain name: TTL,
class and type, then the rdata. -/
def zread_record (env : Env) (z : zparser) : M (zparser × Step) := do
  /- Process TTL, class and type -/
  let z := { z with _rr := { z._rr with ttl := z.ttl, class_ := z.class_, type := 0 } }
  let z := zread_header env z._t.length { z with _tc := 1 }
  /- Couldn't parse ttl, class or type? -/
  if z._rr.type = 0 then
    let z ← zsyntax z
    pure (z, Step.again)
  else
    /- Unless it is NULL record rdata must be present -/
    let z := { z with _tc := z._tc + 1 }
    if z.tok z._tc = none then
      if z._rr.type ≠ TYPE_NULL then
        let z ← zsyntax z
        pure (z, Step.again)
      else pure (z, Step.ret)
    else
      /- Now parse the rdata... -/
      let (z, r) ← zrdata env z
      if r ≠ 0 then
        /- Free any used rdata and try another line... -/
        if z._rc ≥ 0 then
          pure ({ z with _rr := { z._rr with rdata := zread_free z._rr.rdata (z._rc.toNat + 1) },
                         _rc := -1 }, Step.again)
        else pure (z, Step.again)
      else
        /- Do we have any tokens left? -/
        let z ← if z.tok z._tc ≠ none then zerror z "trailing garbage" else pure z
        /- Add the trailing NULL and adjust the counter. -/
        let z ← zaddrdata env z none
        pure ({ z with _rc := z._rc - 1 }, Step.ret)

/-- The body of the loop `while(zparseline(z) > 0)` of `zread`. -/
def zread_body (env : Env) (z : zparser) : M (zparser × Step) := do
  /- Process $DIRECTIVES -/
  if (← z.deref 0) = ch '$' then
    if strcasecmp ((z.tok 0).getD []) (str "$TTL") then
      match z.tok 1 with
      | none =>
        let z ← zerror z "invalid or missing ttl value"
        pure (z, Step.again)
      | some s =>
        let z := { z with ttl := ((strtottl s).1 % 2 ^ 32).toNat }
        if (z.ttl ||| 1) ≠ 0 ∨ (strtottl s).2 ≠ [] then
          let z ← zerror z "invalid or missing ttl value"
          pure (z, Step.again)
        else pure (z, Step.again)
    else if strcasecmp ((z.tok 0).getD []) (str "$ORIGIN") then
      match z.tok 1 with
      | none =>
        let z ← zerror z "invalid or missing origin"
        /- Clean up after use... -/
        pure ({ z with _rr := { z._rr with dname := none } }, Step.again)
      | some s =>
        let z := { z with _rr := { z._rr with dname := env.strdname s z.origin } }
        if z._rr.dname = none then
          let z ← zerror z "invalid or missing origin"
          pure ({ z with _rr := { z._rr with dname := none } }, Step.again)
        else
          let z := { z with origin := z._rr.dname }
          pure ({ z with _rr := { z._rr with dname := none } }, Step.again)
    else if strcasecmp ((z.tok 0).getD []) (str "$INCLUDE") then
      match z.tok 1 with
      | none =>
        let z ← zerror z "missing include file name"
        pure (z, Step.again)
      | some f =>
        let origin := match z.tok 2 with
          | some o => env.strdname o z.origin
          | none => z.origin
        match ← _zopen env f z.ttl z.class_ origin with
        | none =>
          let z ← zerror z "unable to open include file"
          pure (z, Step.again)
        | some i =>
          /- Call ourselves again to start including -/
          pure ({ z with include_ := some i }, Step.inc)
    else
      let z ← zerror z "unknown directive"
      pure (z, Step.again)
  /- Process the domain name -/
  else if (← z.deref 0) = ch ' ' then
    if z._rr.dname = none then
      let z ← zerror z "missing domain name"
      pure (z, Step.again)
    else zread_record env z
  else
    /- Parse the dname -/
    let z := { z with _rr := { z._rr with dname := env.strdname ((z.tok 0).getD []) z.origin } }
    if z._rr.dname = none then
      let z ← zerror z "invalid domain name"
      pure ({ z with _rr := { z._rr with dname := none } }, Step.again)
    else zread_record env z

mutual
/-- Reads a resource record from an open zone file.  The result is the parser
after the call and the record the returned pointer points to, `none` for
`NULL` (end of file or critical error).  The first argument bounds the number
of calls and of rounds of the loop. -/
def zread (env : Env) : Nat → zparser → M (zparser × Option RR)
  | 0, _ => throw Fault.fuel
  | fuel + 1, z =>
    /- Are we including at the moment? -/
    match z.include_ with
    | some i => do
      /- Anything left in that include? -/
      let (i, r) ← zread env fuel i
      if r ≠ none then pure ({ z with include_ := some i }, some i._rr)
      else
        /- Extract the interesting information, close it, and proceed -/
        zread_loop env fuel { z with lines := z.lines + i.lines, errors := z.errors + i.errors,
                                     include_ := none }
    | none => zread_loop env fuel z
/-- The loop `while(zparseline(z) > 0)` of `zread` and the `return NULL` after
it. -/
def zread_loop (env : Env) : Nat → zparser → M (zparser × Option RR)
  | 0, _ => throw Fault.fuel
  | fuel + 1, z => do
    let (z, n) ← zparseline env z
    if n > 0 then
      match ← zread_body env z with
      | (z, Step.again) => zread_loop env fuel z
      | (z, Step.ret) => pure (z, some z._rr)
      | (z, Step.inc) => zread env fuel z
    else pure (z, none)
end

/-! ## A sample environment -/

/-- The pieces of a string between its dots. -/
def split_dots : List Nat → List (List Nat)
  | [] => [[]]
  | c :: cs =>
    if c = ch '.' then [] :: split_dots cs
    else match split_dots cs with
      | [] => [[c]]
      | l :: ls => (c :: l) :: ls

/-- The labels of a name in wire format: each with its length in front. -/
def wire_labels : List (List Nat) → List Nat
  | [] => []
  | l :: ls => l.length :: (l.map tolower ++ wire_labels ls)

/-- Modelled from the spec: the domain name encoder of dname.c, which is not
under src/.  It produces the canonical wire format of a name, a sequence of
labels with their length in front that a zero length ends, relative to an
origin; as the root origin `"\001"` of `zopen` shows, the total length comes
first.  A name with an empty label, a label of more than 63 bytes or more than
255 bytes in all has no wire format and gives `NULL`. -/
def sample_strdname (s : List Nat) (origin : Option (List Nat)) : Option (List Nat) :=
  if s = str "@" then origin
  else if s = str "." then some ROOT
  else
    let parts := split_dots s
    let absolute := parts.getLast? == some []
    let labels := if absolute then parts.dropLast else parts
    if labels.any (fun l => l.length = 0 ∨ l.length > 63) then none
    else
      match (if absolute then some [0] else origin.map List.tail) with
      | none => none
      | some rest =>
        let wire := wire_labels labels ++ rest
        if wire.length > 255 then none else some (wire.length :: wire)

/-- The decimal value of a string of one to three digits that is at most 255. -/
def quad_part (s : List Nat) : Option Nat :=
  if s ≠ [] ∧ s.length ≤ 3 ∧ s.all isdigit ∧ (strtol_digits s 0).1 ≤ 255 then
    some (strtol_digits s 0).1
  else none

/-- The decoder of an IPv4 address on dotted quads `a.b.c.d` of decimal
numbers; the library decoder accepts further forms, which the sample files do
not use. -/
def sample_inet_aton (s : List Nat) : Option (List Nat) :=
  match (split_dots s).map quad_part with
  | [some a, some b, some c, some d] => some [a, b, c, d]
  | _ => none

/-- Modelled from the spec: the tables `Z_TYPES` and `Z_CLASSES` of zparser.h,
which is not under src/, with the types and classes the spec lists and their
codes. -/
def sample_ztypes : List ztab :=
  [⟨TYPE_A, str "A"⟩, ⟨TYPE_NS, str "NS"⟩, ⟨TYPE_MD, str "MD"⟩, ⟨TYPE_MF, str "MF"⟩,
   ⟨TYPE_CNAME, str "CNAME"⟩, ⟨TYPE_SOA, str "SOA"⟩, ⟨TYPE_MB, str "MB"⟩, ⟨TYPE_MG, str "MG"⟩,
   ⟨TYPE_MR, str "MR"⟩, ⟨TYPE_NULL, str "NULL"⟩, ⟨TYPE_WKS, str "WKS"⟩, ⟨TYPE_PTR, str "PTR"⟩,
   ⟨TYPE_HINFO, str "HINFO"⟩, ⟨TYPE_MINFO, str "MINFO"⟩, ⟨TYPE_MX, str "MX"⟩,
   ⟨TYPE_TXT, str "TXT"⟩, ⟨TYPE_RP, str "RP"⟩, ⟨TYPE_AFSDB, str "AFSDB"⟩, ⟨TYPE_SIG, str "SIG"⟩,
   ⟨TYPE_AAAA, str "AAAA"⟩, ⟨TYPE_LOC, str "LOC"⟩, ⟨TYPE_SRV, str "SRV"⟩,
   ⟨TYPE_NAPTR, str "NAPTR"⟩]

/-- Modelled from the spec: the table `Z_CLASSES` with the classes IN, CS, CH,
HS and ANY. -/
def sample_zclasses : List ztab :=
  [⟨CLASS_IN, str "IN"⟩, ⟨2, str "CS"⟩, ⟨3, str "CH"⟩, ⟨4, str "HS"⟩, ⟨255, str "ANY"⟩]

/-- The file a name opens among the given files. -/
def lookup_file (files : List (List Nat × List Nat)) (name : List Nat) : Option (List Nat) :=
  (files.find? fun f => f.1 == name).map Prod.snd

/-- A sample environment over the given files: a little endian host with a 64
bit `long`, a parser whose uninitialised `_rc` holds -1 (the value with which
the first element is stored at index 0; `with_rc0` gives the environment for
another value, such as the 0 of fresh memory) and whose uninitialised bytes
hold 0.
The decoders for IPv6, LOC and base64 data accept nothing; the sample files
hold no such data. -/
def sampleEnv (files : List (List Nat × List Nat)) : Env where
  ztypes := sample_ztypes
  zclasses := sample_zclasses
  ZBUFSIZE := 1024
  MAXTOKENSLEN := 512
  MAXRDATALEN := 64
  MAXRDATAELEMSIZE := 32768
  LONG_MAX := 2 ^ 63 - 1
  bigEndian := false
  rc0 := -1
  junk := 0
  strdname := sample_strdname
  inet_aton := sample_inet_aton
  inet_pton6 := fun _ => none
  loc_aton := fun _ => none
  b64_pton := fun _ _ => none
  fopen := lookup_file files

/-- The globals at the start of the process. -/
def World.init : World := ⟨0, []⟩

/-! ## Runs -/

/-- How a computation started with the globals of a fresh process ends: with a
value and the globals, or with a fault. -/
inductive Outcome (α : Type) where
  | ok (a : α) (w : World)
  | fault (f : Fault)
deriving DecidableEq, Repr

/-- The outcome of a computation in a fresh process. -/
def start {α : Type} (m : M α) : Outcome α :=
  match m.run World.init with
  | Except.ok r => Outcome.ok r.1 r.2
  | Except.error f => Outcome.fault f

/-- The elements of the rdata list of a record up to the terminating `NULL`. -/
def RR.fields (r : RR) : List rdata_t := (r.rdata.takeWhile Option.isSome).filterMap id

/-- The loop `while((rr = zread(z)) != NULL)` of `main`: the records read. -/
def main_loop (env : Env) : Nat → zparser → M (zparser × List RR)
  | 0, _ => throw Fault.fuel
  | fuel + 1, z => do
    match ← zread env (fuel + 1) z with
    | (z, none) => pure (z, [])
    | (z, some rr) =>
      let (z, rrs) ← main_loop env fuel z
      pure (z, rr :: rrs)

/-- What `main` shows: the records read and the number of errors printed at
the end. -/
structure Parsed where
  records : List RR
  errors : Nat
deriving DecidableEq, Repr

/-- The testing wrapper `main`, which parses the zone file named on the command
line with default TTL 3600 and class IN; `none` when the file cannot be
opened. -/
def main (env : Env) (fuel : Nat) (file origin : List Nat) : M (Option Parsed) := do
  match ← zopen env file 3600 CLASS_IN origin with
  | none => pure none
  | some z =>
    let (z, rrs) ← main_loop env fuel z
    pure (some ⟨rrs, z.errors⟩)

/-- What one call of `zread` shows: the record returned, and the default TTL,
the number of errors and the carry-over owner of the parser after the call. -/
structure Read where
  rr : Option RR
  ttl : Nat
  errors : Nat
  dname : Option (List Nat)
deriving DecidableEq, Repr

/-- A parser opened with `zopen` and the first call of `zread` on it. -/
def first_read (env : Env) (fuel : Nat) (file : List Nat) (ttl class_ : Nat) (origin : List Nat) :
    M (Option Read) := do
  match ← zopen env file ttl class_ origin with
  | none => pure none
  | some z =>
    let (z, rr) ← zread env fuel z
    pure (some ⟨rr, z.ttl, z.errors, z._rr.dname⟩)

/-- What one call of `zparseline` shows: the value returned, the tokens `_t[0]`
to `_t[_tc - 1]` and the number of errors. -/
structure Line where
  ret : Int
  tokens : List (Option (List Nat))
  errors : Nat
deriving DecidableEq, Repr

/-- A parser opened with `zopen` and the first call of `zparseline` on it. -/
def first_line (env : Env) (file origin : List Nat) : M (Option Line) := do
  match ← zopen env file 3600 CLASS_IN origin with
  | none => pure none
  | some z =>
    let (z, n) ← zparseline env z
    pure (some ⟨n, z.toks z._tc, z.errors⟩)

/-- The zone file `zone` with the given text, and no other file. -/
def zone (text : String) : Env := sampleEnv [(str "zone", str text)]

/-- The files of a nested include: `zone` includes `a`, `a` includes `b`, and
`b` holds two records. -/
def nested : Env :=
  sampleEnv [(str "zone", str "$INCLUDE a\n"), (str "a", str "$INCLUDE b\n"),
             (str "b", str "x NULL\ny NULL\n")]

/-- The parser at the call of `zrdata` in `zread` for the first line of the
file, a record line that starts with its owner: after `zopen` with default TTL
3600 and class `IN`, `zparseline`, the owner name and the loop over TTL, class
and type, with `_tc` on the first rdata token.  There is no such call, `none`,
when the file does not open, the line gives no token, the owner is rejected,
no type is found or no rdata token follows. -/
def at_rdata (env : Env) (file origin : List Nat) : M (Option zparser) := do
  match ← zopen env file 3600 CLASS_IN origin with
  | none => pure none
  | some z =>
    let (z, n) ← zparseline env z
    if n > 0 then
      let z := { z with _rr := { z._rr with dname := env.strdname ((z.tok 0).getD []) z.origin } }
      let z := { z with _rr := { z._rr with ttl := z.ttl, class_ := z.class_, type := 0 } }
      let z := zread_header env z._t.length { z with _tc := 1 }
      let z := { z with _tc := z._tc + 1 }
      if z._rr.dname = none ∨ z._rr.type = 0 ∨ z.tok z._tc = none then pure none
      else pure (some z)
    else pure none

/-- What a run of an rdata parser shows: the value returned, the rdata list,
the token counter, the rdata counter and the number of errors. -/
structure Rdata where
  ret : Int
  rdata : List (Option rdata_t)
  _tc : Nat
  _rc : Int
  errors : Nat
deriving DecidableEq, Repr

/-- The rdata parser `f` run on the parser of `at_rdata`. -/
def run_rdata (env : Env) (file origin : List Nat) (f : Env → zparser → M (zparser × Int)) :
    M (Option Rdata) := do
  match ← at_rdata env file origin with
  | none => pure none
  | some z =>
    let (z', r) ← f env z
    pure (some ⟨r, z'._rr.rdata, z'._tc, z'._rc, z'.errors⟩)

/-- The sample environment with a decoder `loc_aton` that accepts the string
`accepted` only, and gives sixteen zero bytes for it. -/
def locEnv (accepted : List Nat) (files : List (List Nat × List Nat)) : Env :=
  { sampleEnv files with
    loc_aton := fun s => if s = accepted then some (List.replicate LOCRDLEN 0) else none }

/-- A parser with nothing in it. -/
def zparser.blank : zparser :=
  { filename := [], file := [], errors := 0, lines := 0, _lineno := 0, origin := none, ttl := 0,
    class_ := 0, include_ := none, _rr := ⟨none, 0, 0, 0, []⟩, _rc := -1, _tc := 0, _t := [],
    _buf := [] }

/-- The parser of `at_rdata` in a fresh process, the blank parser when there
is none. -/
def rdata_state (env : Env) (file origin : List Nat) : zparser :=
  match at_rdata env file origin World.init with
  | Except.ok (some z, _) => z
  | _ => zparser.blank

/-- What the run `m` of an rdata parser shows. -/
def observe (m : M (zparser × Int)) : M Rdata := do
  let (z', r) ← m
  pure ⟨r, z'._rr.rdata, z'._tc, z'._rc, z'.errors⟩

/-- The environment `env` for a process in which the field `_rc`, which
`_zopen` does not set, holds `rc0` in a parser fresh from `xalloc`. -/
def with_rc0 (rc0 : Int) (env : Env) : Env := { env with rc0 := rc0 }

/-! ## Postconditions -/

/-- The result of a computation is a value and globals that satisfy `P`, or a
fault other than the model running out of fuel. -/
def Post {α : Type} (P : α → World → Prop) (r : Except Fault (α × World)) : Prop :=
  match r with
  | Except.ok x => P x.1 x.2
  | Except.error e => e ≠ Fault.fuel

/-- The result of a computation, when it is a value, satisfies `P` with the
globals. -/
def Part {α : Type} (P : α → World → Prop) (r : Except Fault (α × World)) : Prop :=
  match r with
  | Except.ok x => P x.1 x.2
  | Except.error _ => True

/-- Token 0 is the start of the line buffer, the buffer starts with a blank,
and there is a token. -/
def Blank0 (z : zparser) : Prop :=
  z._t.getD 0 none = some 0 ∧ z._buf.getD 0 0 = ch ' ' ∧ 1 ≤ z._tc

/-- The rdata list has room for `n` more elements: the next store of
`zaddrdata` is not in front of the list, and the counter stays below
`MAXRDATALEN` before each of the `n` stores. -/
def Room (env : Env) (z : zparser) (n : Nat) : Prop :=
  -1 ≤ z._rc ∧ z._rc + n ≤ env.MAXRDATALEN

/-- The parser after an rdata parser has appended the element `r` with
`zaddrdata` and has moved the token counter one up. -/
def zparser.push (z : zparser) (r : rdata_t) : zparser :=
  { z with _rr := { z._rr with rdata := poke none z._rr.rdata (z._rc + 1).toNat (some r) },
           _rc := z._rc + 1, _tc := z._tc + 1 }

/-- The parser after the elements of the list have been appended one after the
other, each with its token taken. -/
def zparser.pushes (z : zparser) (rs : List rdata_t) : zparser := rs.foldl zparser.push z

/-- A decimal numeral: one or more digits. -/
def Numeral (s : List Nat) : Prop := s ≠ [] ∧ ∀ c ∈ s, isdigit c = true

/-- The value of a decimal numeral. -/
def decimal (s : List Nat) : Nat := s.foldl (fun v c => v * 10 + (c - ch '0')) 0

/-- The globals after the call of `strtol` on the string `s`. -/
def strtol_world (env : Env) (s : List Nat) (w : World) : World :=
  if (strtol env.LONG_MAX s).2.2 then { w with errno := ERANGE } else w

/-- The element `zrdata_long` makes of the token `s`: four bytes, the low 32
bits of the value of `strtol` as the host stores them. -/
def long_field (env : Env) (s : List Nat) : rdata_t :=
  rdata_t.blob 4 (host_bytes env 4 ((strtol env.LONG_MAX s).1 % 2 ^ 32).toNat)

/-- The computation returns, with a value that satisfies `P`. -/
def Returns {α : Type} (P : α → Prop) (r : Except Fault (α × World)) : Prop :=
  match r with
  | Except.ok x => P x.1
  | Except.error _ => False

/-- The result `zr` of an rdata parser for one token, run on `z`: it is 0, or
it is 1, the token was there, and the parser has one more element and is one
token further. -/
def Stepped (z : zparser) (zr : zparser × Int) : Prop :=
  zr.2 = 0 ∨ (zr.2 = 1 ∧ z.tok z._tc ≠ none ∧ ∃ e, zr.1 = z.push e)

/-- The result `zr` of a chain of `k` rdata parsers run on `z`: it is 0, or it
is 1 and the `k` tokens from the token counter on were there. -/
def Ran (z : zparser) (k : Nat) (zr : zparser × Int) : Prop :=
  zr.2 = 0 ∨ (zr.2 = 1 ∧ ∀ j, j < k → z.tok (z._tc + j) ≠ none)

/-- A unit letter of a period of time: one of `s`, `m`, `h`, `d`, `w`, in
either letter case. -/
def TimeUnit (u : Nat) : Prop := u ∈ str "smhdwSMHDW"

/-- The seconds in a unit of time: 1 for `s`, 60 for `m`, 3600 for `h`, 86400
for `d` and 604800 for `w`. -/
def multiplier (u : Nat) : Nat :=
  if u = ch 's' ∨ u = ch 'S' then 1
  else if u = ch 'm' ∨ u = ch 'M' then 60
  else if u = ch 'h' ∨ u = ch 'H' then 3600
  else if u = ch 'd' ∨ u = ch 'D' then 86400
  else if u = ch 'w' ∨ u = ch 'W' then 604800
  else 0

/-- The string of the groups `d1 u1 ... dk uk`, each a numeral and a unit
letter, followed by the string `d`. -/
def period (gs : List (List Nat × Nat)) (d : List Nat) : List Nat :=
  (gs.map fun g => g.1 ++ [g.2]).flatten ++ d

/-- The sum of the values of the numerals of the groups, each times the
multiplier of its unit, plus the value of `d`. -/
def period_seconds (gs : List (List Nat × Nat)) (d : List Nat) : Nat :=
  (gs.map fun g => decimal g.1 * multiplier g.2).sum + decimal d

/-! ## Lemmas on the rdata parsers -/

/-- A postcondition of `get`. -/
theorem post_get (P : World → World → Prop) (w : World) :
    Post P ((get : M World) w) ↔ P w w := Iff.rfl

/-- A bind whose first part returns continues with the value returned. -/
theorem run_bind_ok {α β : Type} {m : M α} {f : α → M β} {w w' : World} {a : α}
    (h : m w = Except.ok (a, w')) : (m >>= f) w = f a w' := by
  simp only [bind, StateT.bind, Except.bind, h]

/-- The first byte of a token that is there. -/
theorem run_deref {z : zparser} {i : Nat} {s : List Nat} (h : z.tok i = some s) (w : World) :
    z.deref i w = Except.ok (s.headD 0, w) := by
  unfold zparser.deref
  rw [h]
  rfl

/-! ## Lemmas on the tokenizer -/

/-- A partial postcondition of `pure`. -/
theorem part_pure {α : Type} (P : α → World → Prop) (a : α) (w : World) :
    Part P ((pure a : M α) w) ↔ P a w := Iff.rfl

/-- A partial postcondition of a bind is one of its first part. -/
theorem part_bind {α β : Type} (P : β → World → Prop) (m : M α) (f : α → M β) (w : World) :
    Part P ((m >>= f) w) ↔ Part (fun a w' => Part P (f a w')) (m w) := by
  simp only [bind, StateT.bind, Except.bind]
  cases m w <;> exact Iff.rfl

/-- A fault satisfies every partial postcondition. -/
theorem part_throw {α : Type} (P : α → World → Prop) (e : Fault) (w : World) :
    Part P ((throw e : M α) w) ↔ True := Iff.rfl

/-- A partial postcondition of `get`. -/
theorem part_get (P : World → World → Prop) (w : World) :
    Part P ((get : M World) w) ↔ P w w := Iff.rfl

/-- A partial postcondition of a conditional. -/
theorem part_ite {α : Type} (P : α → World → Prop) (c : Prop) [Decidable c] (a b : M α)
    (w : World) :
    Part P ((if c then a else b) w) ↔ (c → Part P (a w)) ∧ (¬c → Part P (b w)) := by
  split <;> simp [*]

/-- A weaker partial postcondition holds as well. -/
theorem part_mono {α : Type} {P Q : α → World → Prop} {r : Except Fault (α × World)}
    (h : Part P r) (hpq : ∀ a w, P a w → Q a w) : Part Q r := by
  cases r with
  | ok x => exact hpq _ _ h
  | error e => trivial

/-- A partial postcondition of `zerror`. -/
theorem part_zerror (P : zparser → World → Prop) (z : zparser) (msg : String) (w : World) :
    Part P (zerror z msg w) ↔ P { z with errors := z.errors + 1 }
      { w with stderr := w.stderr ++ [⟨msg, z.filename, z._lineno⟩] } := Iff.rfl

/-- A store at one index leaves the cells at the other indices as they are. -/
theorem poke_getD_ne {α : Type} (d : α) (v : α) :
    ∀ (l : List α) (i j : Nat), i ≠ j → (poke d l i v).getD j d = l.getD j d := by
  intro l
  induction l with
  | nil =>
    intro i
    induction i with
    | zero =>
      intro j h
      cases j with
      | zero => exact absurd rfl h
      | succ j => simp [poke]
    | succ i ih =>
      intro j h
      cases j with
      | zero => simp [poke]
      | succ j =>
        have := ih j (by omega)
        simpa [poke] using this
  | cons x xs ih =>
    intro i j h
    cases i with
    | zero =>
      cases j with
      | zero => exact absurd rfl h
      | succ j => simp [poke]
    | succ i =>
      cases j with
      | zero => simp [poke]
      | succ j =>
        have := ih i j (by omega)
        simpa [poke] using this

/-- The skip over delimiters does not move backwards. -/
theorem skip_delims_ge (z : zparser) : ∀ (fuel p : Nat), p ≤ skip_delims z fuel p := by
  intro fuel
  induction fuel with
  | zero => intro p; exact Nat.le_refl _
  | succ n ih =>
    intro p
    unfold skip_delims
    split
    · exact Nat.le_trans (Nat.le_succ p) (ih (p + 1))
    · exact Nat.le_refl _

/-- The search for the closing quote does not move backwards. -/
theorem find_quote_ge (z : zparser) : ∀ (fuel p : Nat), p ≤ find_quote z fuel p := by
  intro fuel
  induction fuel with
  | zero => intro p; exact Nat.le_refl _
  | succ n ih =>
    intro p
    unfold find_quote
    split
    · exact Nat.le_trans (Nat.le_succ p) (ih (p + 1))
    · exact Nat.le_refl _

/-- The search for the next delimiter does not move backwards. -/
theorem find_delim_ge (z : zparser) : ∀ (fuel p : Nat), p ≤ find_delim z fuel p := by
  intro fuel
  induction fuel with
  | zero => intro p; exact Nat.le_refl _
  | succ n ih =>
    intro p
    unfold find_delim
    split
    · exact Nat.le_refl _
    · exact Nat.le_trans (Nat.le_succ p) (ih (p + 1))

/-- A store at index 0 is read back at index 0. -/
theorem poke_getD_zero {α : Type} (d : α) (v : α) (l : List α) :
    (poke d l 0 v).getD 0 d = v := by
  cases l <;> simp [poke]

/-- `zaddtoken` stores the token at the token counter and moves the counter one
up; it keeps the line number and the line buffer. -/
theorem part_zaddtoken (env : Env) (z : zparser) (t : Option Nat) (w : World) :
    Part (fun z' _ => z'._lineno = z._lineno ∧ z'._buf = z._buf ∧ z'._tc = z._tc + 1 ∧
      z'._t = poke none z._t z._tc t) (zaddtoken env z t w) := by
  simp only [zaddtoken, part_bind, part_ite, part_pure, part_throw, part_zerror]
  exact ⟨fun _ => trivial, fun _ => by simp⟩

/-- A NUL stored behind the start of the buffer keeps token 0 and the leading
blank. -/
theorem blank0_poke {z : zparser} {t : Nat} (h : Blank0 z) (ht : 1 ≤ t) :
    Blank0 { z with _buf := poke 0 z._buf t 0 } := by
  refine ⟨h.1, ?_, h.2.2⟩
  have := poke_getD_ne 0 0 z._buf t 0 (by omega)
  simpa using this.trans h.2.1

/-- The loop over a physical line keeps the line number, and from an offset
behind the start of the buffer it keeps token 0 and the leading blank. -/
theorem part_scan (env : Env) :
    ∀ (fuel : Nat) (z : zparser) (p : Nat) (l : Locals) (w : World),
      Part (fun zr _ => zr.1._lineno = z._lineno ∧ (1 ≤ p → Blank0 z → Blank0 zr.1))
        (zparseline_scan env fuel z p l w) := by
  intro fuel
  induction fuel with
  | zero => intro z p l w; trivial
  | succ n ih =>
    intro z p l w
    unfold zparseline_scan
    have hs := skip_delims_ge z z._buf.length p
    have hq := find_quote_ge z z._buf.length (skip_delims z z._buf.length p + 1)
    have hd := find_delim_ge z z._buf.length (skip_delims z z._buf.length p)
    simp only [part_ite, part_pure, part_bind, part_zerror]
    generalize skip_delims z z._buf.length p = s at hs hq hd ⊢
    generalize find_quote z z._buf.length (s + 1) = tq at hq ⊢
    generalize find_delim z z._buf.length s = td at hd ⊢
    have key : ∀ (z' : zparser) (p' : Nat) (l' : Locals) (w' : World),
        z'._lineno = z._lineno → (1 ≤ p → 1 ≤ p') → (1 ≤ p → Blank0 z → Blank0 z') →
        Part (fun zr _ => zr.1._lineno = z._lineno ∧ (1 ≤ p → Blank0 z → Blank0 zr.1))
          (zparseline_scan env n z' p' l' w') :=
      fun z' p' l' w' hl hp' hbz =>
        part_mono (ih z' p' l' w')
          (fun zr _ h => ⟨h.1.trans hl, fun hp hb => h.2 (hp' hp) (hbz hp hb)⟩)
    have key2 : ∀ (z' : zparser) (tok : Option Nat) (p' : Nat) (l' : Locals) (w' : World),
        z'._lineno = z._lineno → (1 ≤ p → 1 ≤ p') → (1 ≤ p → Blank0 z → Blank0 z') →
        Part (fun a w2 =>
            Part (fun zr _ => zr.1._lineno = z._lineno ∧ (1 ≤ p → Blank0 z → Blank0 zr.1))
              (zparseline_scan env n a p' l' w2))
          (zaddtoken env z' tok w') :=
      fun z' tok p' l' w' hl hp' hbz =>
        part_mono (part_zaddtoken env z' tok w')
          (fun a w2 ha => key a p' l' w2 (ha.1.trans hl) hp'
            (fun hp hb => ⟨by
                rw [ha.2.2.2, poke_getD_ne none tok z'._t z'._tc 0
                  (by have := (hbz hp hb).2.2; omega)]
                exact (hbz hp hb).1,
              by rw [ha.2.1]; exact (hbz hp hb).2.1,
              ha.2.2.1 ▸ Nat.le_add_left 1 _⟩))
    repeat' first
      | (with_reducible apply And.intro)
      | (intro _)
      | trivial
      | assumption
      | exact key _ _ _ _ rfl (fun _ => by omega) (fun _ hb => blank0_poke hb (by omega))
      | exact key2 _ _ _ _ _ rfl (fun _ => by omega) (fun _ hb => blank0_poke hb (by omega))
      | exact key2 _ _ _ _ _ rfl (fun _ => by omega) (fun _ hb => hb)

/-- A token count returned by the loop of `zparseline` comes after at least one
physical line was read. -/
theorem part_loop_lineno (env : Env) :
    ∀ (fuel : Nat) (z : zparser) (par : Bool) (w : World),
      Part (fun zr _ => 0 < zr.2 → z._lineno < zr.1._lineno) (zparseline_loop env fuel z par w) := by
  intro fuel
  induction fuel with
  | zero => intro z par w; trivial
  | succ n ih =>
    intro z par w
    unfold zparseline_loop
    cases hf : fgets env.ZBUFSIZE z.file with
    | none =>
      simp only [part_bind, part_get, part_ite, part_zerror, part_pure]
      omega
    | some lr =>
      obtain ⟨line, rest⟩ := lr
      simp only [part_ite, part_bind, part_pure]
      refine ⟨fun _ => part_mono (part_zaddtoken _ _ _ _) (fun a w1 ha => ?_), fun _ => ?_⟩
      all_goals
        refine part_mono (part_scan env _ _ _ _ _) (fun zr w2 hz => ?_)
        obtain ⟨z2, o⟩ := zr
        have hl : z2._lineno = z._lineno + 1 := hz.1.trans (by first | exact ha.1 | rfl)
        cases o with
        | none =>
          simp only [part_pure]
          omega
        | some l =>
          simp only [part_ite, part_bind, part_zerror, part_pure]
          refine ⟨fun _ => by omega, fun _ => ⟨fun _ => ?_, fun _ => ⟨fun _ => ?_, fun _ => ?_⟩⟩⟩
          · exact part_mono (ih z2 _ w2) (fun zr _ h hpos => by have := h hpos; omega)
          · exact part_mono (ih z2 _ w2) (fun zr _ h hpos => by have := h hpos; omega)
          · exact part_mono (part_zaddtoken _ _ _ _) (fun a _ ha _ => by
              have := ha.1
              change z._lineno < a._lineno
              omega)

/-- The string at the start of a buffer that starts with a blank starts with
that blank. -/
theorem cstr_blank {buf : List Nat} (h : buf.getD 0 0 = ch ' ') :
    ∃ s, cstr (buf.drop 0) = ch ' ' :: s := by
  cases buf with
  | nil => exact absurd h (by decide)
  | cons c cs =>
    have hc : c = ch ' ' := by simpa using h
    subst hc
    refine ⟨cstr cs, ?_⟩
    show (if ch ' ' = 0 then [] else ch ' ' :: cstr cs) = _
    rw [if_neg (by decide)]

/-- Token 0 of a record that starts on a line with a leading space or tab.
When the next physical line of the file begins with a space or a tab and
`zparseline` returns a token count after reading that line only, token 0 is a
string that starts with a blank. -/
theorem zparseline_leading_blank (env : Env) (z : zparser) (w : World) (line rest : List Nat)
    (hf : fgets env.ZBUFSIZE z.file = some (line, rest))
    (hb : line.headD 0 = ch ' ' ∨ line.headD 0 = ch '\t') :
    Part (fun zr _ => 0 < zr.2 → zr.1._lineno = z._lineno + 1 →
        ∃ s, zr.1.tok 0 = some (ch ' ' :: s))
      (zparseline env z w) := by
  unfold zparseline
  unfold zparseline_loop
  have hat : (line ++ 0 :: List.drop (line.length + 1) z._buf).getD 0 0 = line.headD 0 := by
    cases line with
    | nil => exact absurd hb (by decide)
    | cons c cs => simp
  simp only [hf, part_ite, part_bind, part_pure, zparser.at, hat]
  refine ⟨fun _ => part_mono (part_zaddtoken _ _ _ _) (fun a w1 ha => ?_),
    fun h => absurd ⟨rfl, hb⟩ h⟩
  have hba : Blank0 a := by
    refine ⟨?_, ?_, ?_⟩
    · rw [ha.2.2.2]; exact poke_getD_zero none (some 0) _
    · rw [ha.2.1]; exact poke_getD_zero 0 (ch ' ') _
    · exact ha.2.2.1 ▸ Nat.le_add_left 1 _
  refine part_mono (part_scan env _ _ _ _ _) (fun zr w2 hz => ?_)
  obtain ⟨z2, o⟩ := zr
  have hl : z2._lineno = z._lineno + 1 := hz.1.trans ha.1
  have hb2 : Blank0 z2 := hz.2 (Nat.le_refl 1) hba
  cases o with
  | none =>
    simp only [part_pure]
    omega
  | some l =>
    simp only [part_ite, part_bind, part_zerror, part_pure]
    refine ⟨fun _ => by omega, fun _ => ⟨fun h0 => ?_, fun _ => ⟨fun _ => ?_, fun _ => ?_⟩⟩⟩
    · exact absurd h0 (by have := hb2.2.2; omega)
    · exact part_mono (part_loop_lineno env _ z2 _ w2)
        (fun zr _ h hpos hline => by have := h hpos; omega)
    · refine part_mono (part_zaddtoken _ _ _ _) (fun b _ hb3 _ _ => ?_)
      obtain ⟨s, hs⟩ := cstr_blank hb2.2.1
      refine ⟨s, ?_⟩
      have ht : b._t.getD 0 none = some 0 := by
        rw [hb3.2.2.2, poke_getD_ne none none z2._t z2._tc 0 (by have := hb2.2.2; omega)]
        exact hb2.1
      show (b._t.getD 0 none).map (fun off => cstr (b._buf.drop off)) = _
      rw [ht, hb3.2.1]
      exact congrArg some hs

/-! ## Exact results of the rdata parsers -/

/-- With room in the list `zaddrdata` stores the element behind the last one. -/
theorem zaddrdata_ok (env : Env) (z : zparser) (r : Option rdata_t) (w : World)
    (h : Room env z 1) :
    zaddrdata env z r w = Except.ok
      ({ z with _rr := { z._rr with rdata := poke none z._rr.rdata (z._rc + 1).toNat r },
                _rc := z._rc + 1 }, w) := by
  obtain ⟨h1, h2⟩ := h
  have h3 : ¬ z._rc ≥ (env.MAXRDATALEN : Int) := by push_cast at h2; omega
  have h4 : ¬ z._rc + 1 < 0 := by omega
  unfold zaddrdata
  simp only [h3, h4, if_false]
  rfl

/-- The digits loop of `strtol` on a string of digits reads all of it. -/
theorem strtol_digits_all : ∀ (s : List Nat) (acc : Nat), (∀ c ∈ s, isdigit c = true) →
    strtol_digits s acc = (s.foldl (fun v c => v * 10 + (c - ch '0')) acc, []) := by
  intro s
  induction s with
  | nil => intro acc _; rfl
  | cons c cs ih =>
    intro acc h
    unfold strtol_digits
    rw [if_pos (h c (List.mem_cons_self _ _))]
    rw [ih _ (fun x hx => h x (List.mem_cons_of_mem _ hx))]
    rfl

/-- The function `strtol` on a decimal numeral: it reads all of it, and gives
its value unless that is beyond `LONG_MAX`. -/
theorem strtol_numeral (L : Nat) (s : List Nat) (h : Numeral s) :
    strtol L s
      = if decimal s > L then ((L : Int), [], true) else ((decimal s : Int), [], false) := by
  obtain ⟨hne, hd⟩ := h
  cases s with
  | nil => exact absurd rfl hne
  | cons c cs =>
    have hc : isdigit c = true := hd c (List.mem_cons_self _ _)
    have hc' : 48 ≤ c ∧ c ≤ 57 := by
      simpa [isdigit, ch] using hc
    have hsp : isspace c = false := by
      simp [isspace]
      omega
    have hskip : strtol_skip (c :: cs) = c :: cs := by
      simp [strtol_skip, hsp]
    have hm : ¬ (c = 45) := by omega
    have hp : ¬ (c = 43) := by omega
    unfold strtol
    simp only [hskip, List.head?_cons, Option.map_some', hc]
    simp [ch, hm, hp, hc, strtol_digits_all (c :: cs) 0 hd, decimal]

/-- The call of `strtol` in the decimal parsers returns the value and the rest
of the string. -/
theorem strtol_call_run (env : Env) (s : List Nat) (w : World) :
    strtol_call env s w
      = Except.ok
          (((strtol env.LONG_MAX s).1, (strtol env.LONG_MAX s).2.1), strtol_world env s w) := by
  unfold strtol_call strtol_world
  cases (strtol env.LONG_MAX s).2.2 <;> rfl

/-- Room for more than one element is room for one. -/
theorem room_one {env : Env} {z : zparser} {n : Nat} (h : Room env z (n + 1)) : Room env z 1 := by
  obtain ⟨h1, h2⟩ := h
  refine ⟨h1, ?_⟩
  push_cast at h2 ⊢
  omega

/-- After one element is appended there is room for one element less. -/
theorem room_push {env : Env} {z : zparser} {n : Nat} (e : rdata_t) (h : Room env z (n + 1)) :
    Room env (z.push e) n := by
  obtain ⟨h1, h2⟩ := h
  refine ⟨?_, ?_⟩
  · show -1 ≤ z._rc + 1
    omega
  · show z._rc + 1 + (n : Int) ≤ env.MAXRDATALEN
    push_cast at h2
    omega

/-- `zrdata_dname` on a name the encoder accepts, with room in the list. -/
theorem zrdata_dname_ok (env : Env) (z : zparser) (w : World) (s d : List Nat)
    (hs : z.tok z._tc = some s) (hd : env.strdname s z.origin = some d) (h : Room env z 1) :
    zrdata_dname env z w = Except.ok ((z.push (rdata_t.dname d), 1), w) := by
  unfold zrdata_dname
  rw [hs]
  dsimp only
  rw [hd]
  dsimp only
  rw [run_bind_ok (zaddrdata_ok env z _ w h)]
  rfl

/-- `zrdata_long` on a token that `strtol` reads to its end, with room in the
list. -/
theorem zrdata_long_ok (env : Env) (z : zparser) (w : World) (s : List Nat)
    (hs : z.tok z._tc = some s) (ht : (strtol env.LONG_MAX s).2.1 = []) (h : Room env z 1) :
    zrdata_long env z w = Except.ok ((z.push (long_field env s), 1), strtol_world env s w) := by
  unfold zrdata_long
  rw [hs]
  dsimp only
  rw [run_bind_ok (strtol_call_run env s w)]
  dsimp only
  rw [if_neg (by simp [ht])]
  rw [run_bind_ok (zaddrdata_ok env z _ _ h)]
  rfl

/-- `zrdata_short` on a token that `strtol` reads to its end, with room in the
list. -/
theorem zrdata_short_ok (env : Env) (z : zparser) (w : World) (s : List Nat)
    (hs : z.tok z._tc = some s) (ht : (strtol env.LONG_MAX s).2.1 = []) (h : Room env z 1) :
    zrdata_short env z w = Except.ok
      ((z.push (rdata_t.blob 2 (host_bytes env 2 ((strtol env.LONG_MAX s).1 % 2 ^ 16).toNat)), 1),
        strtol_world env s w) := by
  unfold zrdata_short
  rw [hs]
  dsimp only
  rw [run_bind_ok (strtol_call_run env s w)]
  dsimp only
  rw [if_neg (by simp [ht])]
  rw [run_bind_ok (zaddrdata_ok env z _ _ h)]
  rfl

/-- `zrdata_byte` on a token that `strtol` reads to its end, with room in the
list. -/
theorem zrdata_byte_ok (env : Env) (z : zparser) (w : World) (s : List Nat)
    (hs : z.tok z._tc = some s) (ht : (strtol env.LONG_MAX s).2.1 = []) (h : Room env z 1) :
    zrdata_byte env z w = Except.ok
      ((z.push (rdata_t.blob 1 (host_bytes env 1 ((strtol env.LONG_MAX s).1 % 2 ^ 8).toNat)), 1),
        strtol_world env s w) := by
  unfold zrdata_byte
  rw [hs]
  dsimp only
  rw [run_bind_ok (strtol_call_run env s w)]
  dsimp only
  rw [if_neg (by simp [ht])]
  rw [run_bind_ok (zaddrdata_ok env z _ _ h)]
  rfl

/-- The string `strtol` leaves of a decimal numeral is empty. -/
theorem strtol_numeral_rest (L : Nat) (s : List Nat) (h : Numeral s) : (strtol L s).2.1 = [] := by
  rw [strtol_numeral L s h]
  split <;> rfl

/-- The result of `strtol` on a decimal numeral that is not beyond `LONG_MAX`. -/
theorem strtol_numeral_le (L : Nat) (s : List Nat) (h : Numeral s) (hl : decimal s ≤ L) :
    strtol L s = ((decimal s : Int), [], false) := by
  rw [strtol_numeral L s h, if_neg (by omega)]

/-- A step `if(!f(z)) return 0;` whose parser returns 1 goes on with the rest. -/
theorem orReturn0_ok {f : M (zparser × Int)} {g : zparser → M (zparser × Int)} {w w1 : World}
    {z1 : zparser} (h : f w = Except.ok ((z1, 1), w1)) : orReturn0 f g w = g z1 w1 := by
  unfold orReturn0
  rw [run_bind_ok h]
  rfl

/-- A computation that returns gives a value. -/
theorem returns_elim {α : Type} {P : α → Prop} {r : Except Fault (α × World)}
    (h : Returns P r) : ∃ a w, r = Except.ok (a, w) ∧ P a := by
  cases r with
  | ok x => exact ⟨x.1, x.2, rfl, h⟩
  | error e => exact absurd h (fun h => h)

/-- With room in the list `zrdata_dname` returns: 0, or 1 with the token taken
and an element appended. -/
theorem zrdata_dname_stepped (env : Env) (z : zparser) (w : World) (h : Room env z 1) :
    Returns (Stepped z) (zrdata_dname env z w) := by
  cases hs : z.tok z._tc with
  | none =>
    unfold zrdata_dname
    rw [hs]
    exact Or.inl rfl
  | some s =>
    cases hd : env.strdname s z.origin with
    | none =>
      unfold zrdata_dname
      rw [hs]
      dsimp only
      rw [hd]
      exact Or.inl rfl
    | some d =>
      rw [zrdata_dname_ok env z w s d hs hd h]
      exact Or.inr ⟨rfl, by simp [hs], _, rfl⟩

/-- With room in the list `zrdata_long` returns: 0, or 1 with the token taken
and an element appended. -/
theorem zrdata_long_stepped (env : Env) (z : zparser) (w : World) (h : Room env z 1) :
    Returns (Stepped z) (zrdata_long env z w) := by
  cases hs : z.tok z._tc with
  | none =>
    unfold zrdata_long
    rw [hs]
    exact Or.inl rfl
  | some s =>
    by_cases ht : (strtol env.LONG_MAX s).2.1 = []
    · rw [zrdata_long_ok env z w s hs ht h]
      exact Or.inr ⟨rfl, by simp [hs], _, rfl⟩
    · unfold zrdata_long
      rw [hs]
      dsimp only
      rw [run_bind_ok (strtol_call_run env s w)]
      dsimp only
      rw [if_pos ht]
      exact Or.inl rfl

/-- The last parser of a chain. -/
theorem ran_last {z : zparser} {r : Except Fault ((zparser × Int) × World)}
    (h : Returns (Stepped z) r) : Returns (Ran z 1) r := by
  obtain ⟨a, w, rfl, ha⟩ := returns_elim h
  cases ha with
  | inl h0 => exact Or.inl h0
  | inr h1 =>
    refine Or.inr ⟨h1.1, fun j hj => ?_⟩
    have : j = 0 := by omega
    subst this
    exact h1.2.1

/-- A step `if(!f(z)) return 0;` in front of a chain of `k` parsers. -/
theorem ran_step {z : zparser} {f : M (zparser × Int)} {g : zparser → M (zparser × Int)}
    {w : World} {k : Nat} (hf : Returns (Stepped z) (f w))
    (hg : ∀ e w', Returns (Ran (z.push e) k) (g (z.push e) w')) :
    Returns (Ran z (k + 1)) (orReturn0 f g w) := by
  obtain ⟨a, w1, hfa, ha⟩ := returns_elim hf
  obtain ⟨z1, r⟩ := a
  unfold orReturn0
  rw [run_bind_ok hfa]
  cases ha with
  | inl h0 =>
    have h0 : r = 0 := h0
    subst h0
    exact Or.inl rfl
  | inr h1 =>
    obtain ⟨hr, ht, e, he⟩ := h1
    have hr : r = 1 := hr
    have he : z1 = z.push e := he
    subst hr
    subst he
    dsimp only
    rw [if_neg (by decide)]
    obtain ⟨b, w2, hgb, hb⟩ := returns_elim (hg e w1)
    rw [hgb]
    cases hb with
    | inl h0 => exact Or.inl h0
    | inr h1 =>
      refine Or.inr ⟨h1.1, fun j hj => ?_⟩
      cases j with
      | zero => exact ht
      | succ j =>
        have := h1.2 j (by omega)
        have e1 : z._tc + (j + 1) = z._tc + 1 + j := by omega
        rw [e1]
        exact this

/-- A C string that is not empty does not start with the NUL. -/
theorem cstr_head (l : List Nat) (h : cstr l ≠ []) : (cstr l).headD 0 ≠ 0 := by
  cases l with
  | nil => exact absurd rfl h
  | cons c cs =>
    unfold cstr at h ⊢
    by_cases hc : c = 0
    · rw [if_pos hc] at h
      exact absurd rfl h
    · rw [if_neg hc]
      exact hc

/-- A token that is not empty does not start with the NUL. -/
theorem tok_head {z : zparser} {i : Nat} {s : List Nat} (h : z.tok i = some s) (hs : s ≠ []) :
    s.headD 0 ≠ 0 := by
  unfold zparser.tok at h
  cases ho : z._t.getD i none with
  | none => rw [ho] at h; exact absurd h (by simp)
  | some off =>
    rw [ho] at h
    have : cstr (z._buf.drop off) = s := by simpa using h
    subst this
    exact cstr_head _ hs

/-- With room for seven elements the SOA case of `zrdata`, called on a token,
returns: 0, or 1 with seven tokens taken. -/
theorem soa_ran (env : Env) (z : zparser) (w : World) (ht : z._rr.type = TYPE_SOA)
    (hroom : Room env z 7) (h0 : z.tok z._tc ≠ none) : Returns (Ran z 7) (zrdata env z w) := by
  cases hs : z.tok z._tc with
  | none => exact absurd hs h0
  | some s =>
    unfold zrdata
    rw [run_bind_ok (run_deref hs w)]
    by_cases hh : s.headD 0 = 0
    · rw [if_pos hh]
      exact Or.inl rfl
    · rw [if_neg hh]
      by_cases hx : z.tok z._tc = some (str "\\#")
      · rw [if_pos hx]
        exact Or.inl rfl
      · rw [if_neg hx, if_neg (by rw [ht]; decide), if_neg (by rw [ht]; decide),
          if_neg (by rw [ht]; decide), if_neg (by rw [ht]; decide), if_pos ht]
        have r6 := fun e1 => @room_push env z 6 e1 hroom
        have r5 := fun e1 e2 => room_push e2 (r6 e1)
        have r4 := fun e1 e2 e3 => room_push e3 (r5 e1 e2)
        have r3 := fun e1 e2 e3 e4 => room_push e4 (r4 e1 e2 e3)
        have r2 := fun e1 e2 e3 e4 e5 => room_push e5 (r3 e1 e2 e3 e4)
        have r1 := fun e1 e2 e3 e4 e5 e6 => room_push e6 (r2 e1 e2 e3 e4 e5)
        exact ran_step (zrdata_dname_stepped env z w (room_one hroom)) fun e1 w1 =>
          ran_step (zrdata_dname_stepped env _ w1 (room_one (r6 e1))) fun e2 w2 =>
          ran_step (zrdata_long_stepped env _ w2 (room_one (r5 e1 e2))) fun e3 w3 =>
          ran_step (zrdata_long_stepped env _ w3 (room_one (r4 e1 e2 e3))) fun e4 w4 =>
          ran_step (zrdata_long_stepped env _ w4 (room_one (r3 e1 e2 e3 e4))) fun e5 w5 =>
          ran_step (zrdata_long_stepped env _ w5 (room_one (r2 e1 e2 e3 e4 e5))) fun e6 w6 =>
          ran_last (zrdata_long_stepped env _ w6 (r1 e1 e2 e3 e4 e5 e6))

/-- The call of `strtol` on a string keeps what was written to `stderr`. -/
theorem strtol_world_stderr (env : Env) (s : List Nat) (w : World) :
    (strtol_world env s w).stderr = w.stderr := by
  unfold strtol_world
  split <;> rfl

/-- The call of `strtol` on a numeral that is not beyond `LONG_MAX` keeps the
globals. -/
theorem strtol_world_le (env : Env) (s : List Nat) (w : World) (h : Numeral s)
    (hl : decimal s ≤ env.LONG_MAX) : strtol_world env s w = w := by
  unfold strtol_world
  rw [strtol_numeral_le _ s h hl]
  rfl

/-! ## Lemmas on strtottl -/

/-- A digit is none of the other characters `strtottl` knows. -/
theorem digit_range {c : Nat} (h : isdigit c = true) : 48 ≤ c ∧ c ≤ 57 := by
  simpa [isdigit, ch] using h

/-- The step of the loop of `strtottl` on a digit. -/
theorem strtottl_loop_digit (c : Nat) (cs : List Nat) (sign i seconds : Int)
    (h : isdigit c = true) :
    strtottl_loop (c :: cs) sign i seconds
      = strtottl_loop cs sign (i * 10 + ((c : Int) - 48)) seconds := by
  have hc := digit_range h
  have n1 : c ≠ 32 := by omega
  have n2 : c ≠ 9 := by omega
  have n3 : c ≠ 45 := by omega
  have n4 : c ≠ 43 := by omega
  have n5 : c ≠ 115 := by omega
  have n6 : c ≠ 83 := by omega
  have n7 : c ≠ 109 := by omega
  have n8 : c ≠ 77 := by omega
  have n9 : c ≠ 104 := by omega
  have n10 : c ≠ 72 := by omega
  have n11 : c ≠ 100 := by omega
  have n12 : c ≠ 68 := by omega
  have n13 : c ≠ 119 := by omega
  have n14 : c ≠ 87 := by omega
  rw [strtottl_loop]
  simp [ch, h, n1, n2, n3, n4, n5, n6, n7, n8, n9, n10, n11, n12, n13, n14]

/-- The ten unit letters, as bytes. -/
theorem time_unit_cases {u : Nat} (h : TimeUnit u) :
    u = 115 ∨ u = 109 ∨ u = 104 ∨ u = 100 ∨ u = 119 ∨ u = 83 ∨ u = 77 ∨ u = 72 ∨ u = 68 ∨
      u = 87 := by
  simpa [TimeUnit, str] using h

/-- The step of the loop of `strtottl` on a unit letter. -/
theorem strtottl_loop_unit (u : Nat) (cs : List Nat) (sign i seconds : Int) (h : TimeUnit u) :
    strtottl_loop (u :: cs) sign i seconds
      = strtottl_loop cs sign 0 (seconds + i * (multiplier u : Nat)) := by
  have h' := time_unit_cases h
  rcases h' with rfl | rfl | rfl | rfl | rfl | rfl | rfl | rfl | rfl | rfl <;>
    rw [strtottl_loop] <;> simp [ch, multiplier] <;> ring_nf

/-- The loop of `strtottl` over a run of digits. -/
theorem strtottl_loop_digits : ∀ (ds : List Nat) (n : Nat) (rest : List Nat) (sign seconds : Int),
    (∀ c ∈ ds, isdigit c = true) →
    strtottl_loop (ds ++ rest) sign (n : Int) seconds
      = strtottl_loop rest sign ((ds.foldl (fun v c => v * 10 + (c - ch '0')) n : Nat) : Int)
          seconds := by
  intro ds
  induction ds with
  | nil => intro n rest sign seconds _; rfl
  | cons c cs ih =>
    intro n rest sign seconds h
    have hc := h c (List.mem_cons_self _ _)
    have hr := digit_range hc
    rw [List.cons_append, strtottl_loop_digit _ _ _ _ _ hc, List.foldl_cons]
    have e : (n : Int) * 10 + ((c : Int) - 48) = ((n * 10 + (c - ch '0') : Nat) : Int) := by
      have : ch '0' = 48 := rfl
      rw [this]
      omega
    rw [e]
    exact ih _ _ _ _ (fun x hx => h x (List.mem_cons_of_mem _ hx))

/-- The loop of `strtottl` over groups of a numeral and a unit letter. -/
theorem strtottl_loop_groups : ∀ (gs : List (List Nat × Nat)),
    (∀ g ∈ gs, Numeral g.1 ∧ TimeUnit g.2) → ∀ (n : Nat) (rest : List Nat) (sign : Int),
    strtottl_loop ((gs.map fun g => g.1 ++ [g.2]).flatten ++ rest) sign 0 (n : Int)
      = strtottl_loop rest sign 0
          ((n + (gs.map fun g => decimal g.1 * multiplier g.2).sum : Nat) : Int) := by
  intro gs
  induction gs with
  | nil => intro _ n rest sign; simp
  | cons g gs ih =>
    intro h n rest sign
    obtain ⟨hn, hu⟩ := h g (List.mem_cons_self _ _)
    have e : ((g :: gs).map fun g => g.1 ++ [g.2]).flatten ++ rest
        = g.1 ++ (g.2 :: ((gs.map fun g => g.1 ++ [g.2]).flatten ++ rest)) := by
      simp
    rw [e]
    have := strtottl_loop_digits g.1 0 (g.2 :: ((gs.map fun g => g.1 ++ [g.2]).flatten ++ rest))
      sign (n : Int) hn.2
    rw [Nat.cast_zero] at this
    rw [this, strtottl_loop_unit _ _ _ _ _ hu]
    have e2 : (n : Int) + ((List.foldl (fun v c => v * 10 + (c - ch '0')) 0 g.1 : Nat) : Int)
        * ((multiplier g.2 : Nat) : Int) = ((n + decimal g.1 * multiplier g.2 : Nat) : Int) := by
      unfold decimal
      push_cast
      rfl
    rw [e2, ih (fun x hx => h x (List.mem_cons_of_mem _ hx))]
    congr 1
    simp [Nat.add_assoc]

/-- The function `strtottl` on a period of time, in exact arithmetic. -/
theorem strtottl_period_exact (gs : List (List Nat × Nat)) (d : List Nat)
    (hg : ∀ g ∈ gs, Numeral g.1 ∧ TimeUnit g.2) (hd : ∀ c ∈ d, isdigit c = true) :
    strtottl (period gs d) = ((period_seconds gs d : Int), []) := by
  unfold strtottl period period_seconds
  have h1 := strtottl_loop_groups gs hg 0 d 0
  rw [Nat.cast_zero] at h1
  rw [h1]
  have h2 := strtottl_loop_digits d 0 [] 0
    ((0 + (gs.map fun g => decimal g.1 * multiplier g.2).sum : Nat) : Int) hd
  rw [List.append_nil, Nat.cast_zero] at h2
  rw [h2]
  unfold strtottl_loop strtottl_ret decimal
  rw [if_neg (by decide)]
  push_cast
  simp

/-- A value between 0 and `LONG_MAX` is a value of a `long`. -/
theorem as_long_ok {L : Nat} {x : Int} (h0 : 0 ≤ x) (h1 : x ≤ L) : as_long L x = some x := by
  unfold as_long
  rw [if_pos ⟨by omega, h1⟩]

/-- The value of a `long` is the value itself. -/
theorem as_long_some {L : Nat} {x y : Int} (h : as_long L x = some y) : y = x := by
  unfold as_long at h
  split at h
  · exact (Option.some.inj h).symm
  · exact absurd h (by simp)

/-- The step of the loop of `strtottl` on a digit, in the arithmetic of a
`long`. -/
theorem strtottl_long_loop_digit (L c : Nat) (cs : List Nat) (sign : Int) (n : Nat)
    (seconds : Int) (h : isdigit c = true) (hb : n * 10 + (c - 48) ≤ L) :
    strtottl_long_loop L (c :: cs) sign (n : Int) seconds
      = strtottl_long_loop L cs sign ((n * 10 + (c - 48) : Nat) : Int) seconds := by
  have hc := digit_range h
  have n1 : c ≠ 32 := by omega
  have n2 : c ≠ 9 := by omega
  have n3 : c ≠ 45 := by omega
  have n4 : c ≠ 43 := by omega
  have n5 : c ≠ 115 := by omega
  have n6 : c ≠ 83 := by omega
  have n7 : c ≠ 109 := by omega
  have n8 : c ≠ 77 := by omega
  have n9 : c ≠ 104 := by omega
  have n10 : c ≠ 72 := by omega
  have n11 : c ≠ 100 := by omega
  have n12 : c ≠ 68 := by omega
  have n13 : c ≠ 119 := by omega
  have n14 : c ≠ 87 := by omega
  have e : ((n * 10 + (c - 48) : Nat) : Int) = (n : Int) * 10 + ((c : Int) - 48) := by omega
  have e1 : as_long L ((n : Int) * 10) = some ((n : Int) * 10) :=
    as_long_ok (by omega) (by omega)
  have e2 : as_long L ((n : Int) * 10 + ((c : Int) - 48))
      = some ((n : Int) * 10 + ((c : Int) - 48)) := as_long_ok (by omega) (by omega)
  rw [e, strtottl_long_loop]
  simp [ch, h, n1, n2, n3, n4, n5, n6, n7, n8, n9, n10, n11, n12, n13, n14, e1, e2]

/-- The step of the loop of `strtottl` on a unit letter, in the arithmetic of a
`long`. -/
theorem strtottl_long_loop_unit (L u : Nat) (cs : List Nat) (sign : Int) (i n : Nat)
    (h : TimeUnit u) (hb : n + i * multiplier u ≤ L) :
    strtottl_long_loop L (u :: cs) sign (i : Int) (n : Int)
      = strtottl_long_loop L cs sign 0 ((n + i * multiplier u : Nat) : Int) := by
  have h' := time_unit_cases h
  have a1 : ∀ x : Int, 0 ≤ x → x ≤ L → as_long L x = some x := fun x => as_long_ok
  rcases h' with rfl | rfl | rfl | rfl | rfl | rfl | rfl | rfl | rfl | rfl <;>
    simp only [multiplier, ch] at hb ⊢ <;>
    simp at hb ⊢ <;>
    rw [strtottl_long_loop] <;>
    simp [ch] <;>
    (repeat (first
      | rw [a1 _ (by omega) (by omega)]
      | simp only [Option.some_bind])) <;>
    congr 1 <;>
    omega

/-- The value read so far does not get smaller over further digits. -/
theorem decimal_foldl_ge : ∀ (ds : List Nat) (n : Nat),
    n ≤ ds.foldl (fun v c => v * 10 + (c - ch '0')) n := by
  intro ds
  induction ds with
  | nil => intro n; exact Nat.le_refl n
  | cons c cs ih =>
    intro n
    rw [List.foldl_cons]
    exact Nat.le_trans (by omega) (ih _)

/-- The multiplier of a unit letter is at least 1. -/
theorem multiplier_pos {u : Nat} (h : TimeUnit u) : 1 ≤ multiplier u := by
  have h' := time_unit_cases h
  rcases h' with rfl | rfl | rfl | rfl | rfl | rfl | rfl | rfl | rfl | rfl <;> decide

/-- The loop of `strtottl` over a run of digits, in the arithmetic of a
`long`. -/
theorem strtottl_long_loop_digits (L : Nat) : ∀ (ds : List Nat) (n : Nat) (rest : List Nat)
    (sign seconds : Int), (∀ c ∈ ds, isdigit c = true) →
    ds.foldl (fun v c => v * 10 + (c - ch '0')) n ≤ L →
    strtottl_long_loop L (ds ++ rest) sign (n : Int) seconds
      = strtottl_long_loop L rest sign
          ((ds.foldl (fun v c => v * 10 + (c - ch '0')) n : Nat) : Int) seconds := by
  intro ds
  induction ds with
  | nil => intro n rest sign seconds _ _; rfl
  | cons c cs ih =>
    intro n rest sign seconds h hb
    have hc := h c (List.mem_cons_self _ _)
    rw [List.foldl_cons] at hb ⊢
    have h1 : n * 10 + (c - 48) ≤ L := Nat.le_trans (decimal_foldl_ge cs _) hb
    rw [List.cons_append, strtottl_long_loop_digit L c _ sign n seconds hc h1]
    exact ih _ _ _ _ (fun x hx => h x (List.mem_cons_of_mem _ hx)) hb

/-- The loop of `strtottl` over groups of a numeral and a unit letter, in the
arithmetic of a `long`. -/
theorem strtottl_long_loop_groups (L : Nat) : ∀ (gs : List (List Nat × Nat)),
    (∀ g ∈ gs, Numeral g.1 ∧ TimeUnit g.2) → ∀ (n : Nat) (rest : List Nat) (sign : Int),
    n + (gs.map fun g => decimal g.1 * multiplier g.2).sum ≤ L →
    strtottl_long_loop L ((gs.map fun g => g.1 ++ [g.2]).flatten ++ rest) sign 0 (n : Int)
      = strtottl_long_loop L rest sign 0
          ((n + (gs.map fun g => decimal g.1 * multiplier g.2).sum : Nat) : Int) := by
  intro gs
  induction gs with
  | nil => intro _ n rest sign _; simp
  | cons g gs ih =>
    intro h n rest sign hb
    obtain ⟨hn, hu⟩ := h g (List.mem_cons_self _ _)
    rw [List.map_cons, List.sum_cons] at hb
    have hm := multiplier_pos hu
    have h1 : decimal g.1 ≤ decimal g.1 * multiplier g.2 := Nat.le_mul_of_pos_right _ hm
    have e : ((g :: gs).map fun g => g.1 ++ [g.2]).flatten ++ rest
        = g.1 ++ (g.2 :: ((gs.map fun g => g.1 ++ [g.2]).flatten ++ rest)) := by
      simp
    rw [e]
    have := strtottl_long_loop_digits L g.1 0
      (g.2 :: ((gs.map fun g => g.1 ++ [g.2]).flatten ++ rest)) sign (n : Int) hn.2
      (by show decimal g.1 ≤ L; omega)
    rw [Nat.cast_zero] at this
    rw [this]
    rw [strtottl_long_loop_unit L g.2 _ sign _ n hu (by show n + decimal g.1 * _ ≤ L; omega)]
    rw [ih (fun x hx => h x (List.mem_cons_of_mem _ hx)) _ _ _
      (by show n + decimal g.1 * _ + _ ≤ L; omega)]
    unfold decimal
    rw [List.map_cons, List.sum_cons, Nat.add_assoc]

/-- A bind on a value of a `long` that gives a result has gone on with the
value itself. -/
theorem as_long_bind {α : Type} {L : Nat} {x : Int} {f : Int → Option α} {r : α}
    (h : (as_long L x >>= f) = some r) : f x = some r := by
  cases hx : as_long L x with
  | none => rw [hx] at h; exact absurd h (by simp)
  | some y =>
    rw [hx] at h
    rw [← as_long_some hx]
    exact h

/-- Where the arithmetic of a `long` gives a result, exact arithmetic gives the
same. -/
theorem strtottl_long_loop_exact (L : Nat) : ∀ (s : List Nat) (sign i seconds : Int)
    (r : Int × List Nat), strtottl_long_loop L s sign i seconds = some r →
    strtottl_loop s sign i seconds = r := by
  intro s
  induction s with
  | nil =>
    intro sign i seconds r h
    unfold strtottl_long_loop at h
    replace h := as_long_bind h
    replace h := as_long_bind h
    exact Option.some.inj h
  | cons c cs ih =>
    intro sign i seconds r h
    rw [strtottl_long_loop] at h
    rw [strtottl_loop]
    by_cases c1 : c = ch ' ' ∨ c = ch '\t'
    · rw [if_pos c1] at h ⊢
      exact ih _ _ _ _ h
    rw [if_neg c1] at h ⊢
    by_cases c2 : c = ch '-'
    · rw [if_pos c2] at h ⊢
      by_cases s0 : sign = 0
      · rw [if_pos s0] at h ⊢
        exact ih _ _ _ _ h
      · rw [if_neg s0] at h ⊢
        replace h := as_long_bind h
        exact Option.some.inj h
    rw [if_neg c2] at h ⊢
    by_cases c3 : c = ch '+'
    · rw [if_pos c3] at h ⊢
      by_cases s0 : sign = 0
      · rw [if_pos s0] at h ⊢
        exact ih _ _ _ _ h
      · rw [if_neg s0] at h ⊢
        replace h := as_long_bind h
        exact Option.some.inj h
    rw [if_neg c3] at h ⊢
    by_cases c4 : c = ch 's' ∨ c = ch 'S'
    · rw [if_pos c4] at h ⊢
      repeat (replace h := as_long_bind h)
      exact ih _ _ _ _ h
    rw [if_neg c4] at h ⊢
    by_cases c5 : c = ch 'm' ∨ c = ch 'M'
    · rw [if_pos c5] at h ⊢
      repeat (replace h := as_long_bind h)
      exact ih _ _ _ _ h
    rw [if_neg c5] at h ⊢
    by_cases c6 : c = ch 'h' ∨ c = ch 'H'
    · rw [if_pos c6] at h ⊢
      repeat (replace h := as_long_bind h)
      exact ih _ _ _ _ h
    rw [if_neg c6] at h ⊢
    by_cases c7 : c = ch 'd' ∨ c = ch 'D'
    · rw [if_pos c7] at h ⊢
      repeat (replace h := as_long_bind h)
      exact ih _ _ _ _ h
    rw [if_neg c7] at h ⊢
    by_cases c8 : c = ch 'w' ∨ c = ch 'W'
    · rw [if_pos c8] at h ⊢
      repeat (replace h := as_long_bind h)
      exact ih _ _ _ _ h
    rw [if_neg c8] at h ⊢
    by_cases c9 : isdigit c = true
    · rw [if_pos c9] at h ⊢
      repeat (replace h := as_long_bind h)
      exact ih _ _ _ _ h
    rw [if_neg c9] at h ⊢
    repeat (replace h := as_long_bind h)
    exact Option.some.inj h

/-- Where `strtottl` gives a result in the arithmetic of a `long`, it gives the
same in exact arithmetic. -/
theorem strtottl_long_exact (L : Nat) (s : List Nat) (r : Int × List Nat)
    (h : strtottl_long L s = some r) : strtottl s = r :=
  strtottl_long_loop_exact L s 0 0 0 r h

/-- The function `strtottl` on a period of time that does not overflow, in
the arithmetic of a `long`. -/
theorem strtottl_period_long (L : Nat) (gs : List (List Nat × Nat)) (d : List Nat)
    (hg : ∀ g ∈ gs, Numeral g.1 ∧ TimeUnit g.2) (hd : ∀ c ∈ d, isdigit c = true)
    (hl : period_seconds gs d ≤ L) :
    strtottl_long L (period gs d) = some ((period_seconds gs d : Int), []) := by
  unfold period_seconds at hl
  have hp := decimal_foldl_ge d 0
  unfold strtottl_long period period_seconds
  have h1 := strtottl_long_loop_groups L gs hg 0 d 0 (by omega)
  rw [Nat.cast_zero] at h1
  rw [h1]
  have h2 := strtottl_long_loop_digits L d 0 [] 0
    ((0 + (gs.map fun g => decimal g.1 * multiplier g.2).sum : Nat) : Int) hd
    (by show decimal d ≤ L; omega)
  rw [List.append_nil, Nat.cast_zero] at h2
  rw [h2]
  rw [strtottl_long_loop]
  have e : ((0 + (gs.map fun g => decimal g.1 * multiplier g.2).sum : Nat) : Int)
      + ((d.foldl (fun v c => v * 10 + (c - ch '0')) 0 : Nat) : Int)
      = (((gs.map fun g => decimal g.1 * multiplier g.2).sum + decimal d : Nat) : Int) := by
    unfold decimal
    push_cast
    simp
  rw [e, as_long_ok (by omega) (by exact_mod_cast hl)]
  simp only [Option.bind_eq_bind, Option.some_bind]
  unfold strtottl_ret
  rw [if_neg (by decide), as_long_ok (by omega) (by exact_mod_cast hl)]
  rfl

/-! ## The claims -/

/-- C1, the code at the witness of the claim: for the zone file that holds the
line `example.com. 3600 IN A 192.0.2.1`, with origin `.`, `main` reads no record
at all and counts no error.  `zrdata` returns 1 for the address it parsed and
`zread` takes every result other than 0 as the failure. -/
theorem minimal_a_is_dropped :
    start (main (zone "example.com. 3600 IN A 192.0.2.1\n") 10 (str "zone") (str "."))
      = Outcome.ok (some ⟨[], 0⟩) World.init := by
  decide!

/-- C2, the code at the witness of the claim: for the zone file that holds the
malformed line `x A notanip` and then the valid line `y A 10.0.0.1`, `main` reads
one record, the one of the malformed line (owner `x`, type 1, no rdata element),
not the valid one, and counts two errors, both on line 1. -/
theorem malformed_a_is_yielded :
    start (main (zone "x A notanip\ny A 10.0.0.1\n") 10 (str "zone") (str "."))
      = Outcome.ok
          (some ⟨[⟨sample_strdname (str "x") (some ROOT), 3600, CLASS_IN, TYPE_A, [none]⟩], 2⟩)
          ⟨0, [⟨"invalid ip address", str "zone", 1⟩, ⟨"trailing garbage", str "zone", 1⟩]⟩ := by
  decide!

/-- C3, the code at the witness of the claim: on a parser opened with default
TTL 0 on the file that holds the line `$TTL 1h`, the first `zread` sets the
default TTL to 3600, and counts one error with the message of an invalid or
missing value. -/
theorem ttl_directive_counts_error :
    start (first_read (zone "$TTL 1h\n") 10 (str "zone") 0 CLASS_IN (str "."))
      = Outcome.ok (some ⟨none, 3600, 1, none⟩)
          ⟨0, [⟨"invalid or missing ttl value", str "zone", 1⟩]⟩ := by
  decide!

/-- C4, the code on headers with a class token.  Under the default class `IN`
(code 1) the records of the lines `x CH NULL`, `x 10 CH NULL` and
`x CH 10 TYPE10`, whose class token `CH` has code 3, all have class 1; and on a
parser opened with default class 3 the record of the line `x IN NULL` has class
3, not the code 1 of `IN`. -/
theorem class_token_is_overwritten :
    start (main (zone "x CH NULL\nx 10 CH NULL\nx CH 10 TYPE10\n") 10 (str "zone") (str "."))
      = Outcome.ok
          (some ⟨[⟨sample_strdname (str "x") (some ROOT), 3600, 1, TYPE_NULL, []⟩,
                  ⟨sample_strdname (str "x") (some ROOT), 10, 1, TYPE_NULL, []⟩,
                  ⟨sample_strdname (str "x") (some ROOT), 10, 1, TYPE_NULL, []⟩], 0⟩)
          World.init ∧
    start (first_read (zone "x IN NULL\n") 10 (str "zone") 3600 3 (str "."))
      = Outcome.ok
          (some ⟨some ⟨sample_strdname (str "x") (some ROOT), 3600, 3, TYPE_NULL, []⟩, 3600, 0,
            sample_strdname (str "x") (some ROOT)⟩)
          World.init := by
  decide!

/-- C5, the code on a nested include: the first `zread` on `zone` returns a
record, and that record has a null owner name and type 0. -/
theorem nested_include_null_owner :
    start (first_read nested 10 (str "zone") 3600 CLASS_IN (str "."))
      = Outcome.ok (some ⟨some ⟨none, 0, 0, 0, []⟩, 3600, 0, none⟩) World.init := by
  decide!

/-- C6, the code on a nested include: `main` reads two records from `zone`, as
many as `b` holds, but both are the record of the parser of `a`, which has
parsed no record line, and neither is a record of `b`. -/
theorem nested_include_wrong_record :
    start (main nested 10 (str "zone") (str "."))
      = Outcome.ok (some ⟨[⟨none, 0, 0, 0, []⟩, ⟨none, 0, 0, 0, []⟩], 0⟩) World.init := by
  decide!

/-- C8, the code at the witness of the claim: the line `a A 10.0.0.1` gives
the three tokens `a`, `A`, `10.0.0.1`, and the same line with a longer run of
blanks and a blank before the newline makes `zparseline` return -1 and count an
error. -/
theorem trailing_blank_is_an_error :
    start (first_line (zone "a A 10.0.0.1\n") (str "zone") (str "."))
      = Outcome.ok (some ⟨3, [some (str "a"), some (str "A"), some (str "10.0.0.1")], 0⟩)
          World.init ∧
    start (first_line (zone "a  A 10.0.0.1 \n") (str "zone") (str "."))
      = Outcome.ok
          (some ⟨-1, [some (str "a"), some (str "A"), some (str "10.0.0.1"), some []], 1⟩)
          ⟨0, [⟨"truncated line, possibly insufficient buffer size", str "zone", 1⟩]⟩ := by
  decide!

/-- C9, the code on a line that consists of a newline only: `zparseline`
returns -1 for it and counts an error, and the line `a A 10.0.0.1` after it is
not reached. -/
theorem empty_line_is_an_error :
    start (first_line (zone "\na A 10.0.0.1\n") (str "zone") (str "."))
      = Outcome.ok (some ⟨-1, [some []], 1⟩)
          ⟨0, [⟨"truncated line, possibly insufficient buffer size", str "zone", 1⟩]⟩ := by
  decide!

/-- C10, the code at the witness of the claim: the line `a A 10.0.0.1;c` gives
the two tokens `a` and `A` only; the token in front of the `;` is dropped with
the comment. -/
theorem comment_drops_token :
    start (first_line (zone "a A 10.0.0.1;c\n") (str "zone") (str "."))
      = Outcome.ok (some ⟨2, [some (str "a"), some (str "A")], 0⟩) World.init := by
  decide!

/-- C11, the code at the witness of the claim and on a record that has tokens
on both lines.  For the two lines `foo  IN SOA ns root (` and `  1 2 3 4 5 )`
the call of `zparseline` returns -1 after the first line, with an error and an
empty sixth token: the newline that follows the `(` ends no token.  For the
lines `foo IN SOA ns root ( 1 2` and `3 4 5 ) ;` it returns ten tokens, and the
first three are `3`, `5` and a blank, not `foo`, `IN` and `SOA`: the second line
is read into the start of the buffer that holds the text of the first. -/
theorem multi_line_record_tokens :
    start (first_line (zone "foo  IN SOA ns root (\n  1 2 3 4 5 )\n") (str "zone") (str "."))
      = Outcome.ok
          (some ⟨-1, [some (str "foo"), some (str "IN"), some (str "SOA"), some (str "ns"),
                      some (str "root"), some []], 1⟩)
          ⟨0, [⟨"truncated line, possibly insufficient buffer size", str "zone", 1⟩]⟩ ∧
    start (first_line (zone "foo IN SOA ns root ( 1 2\n3 4 5 ) ;\n") (str "zone") (str "."))
      = Outcome.ok
          (some ⟨10, [some (str "3"), some (str "5"), some (str " "), some (str "ns"),
                      some (str "root"), some (str "1"), some (str "2"), some (str "3"),
                      some (str "4"), some (str "5")], 0⟩)
          World.init := by
  decide!

/-- C12, the code at the witness of the claim: for the line
`t TXT "hello; world (x)"` with the newline right after the closing quote,
`zparseline` returns -1 and counts an error, with the quoted run as the third
token and an empty fourth one; with a comment behind the closing quote it
returns the three tokens; and for a quote that is not closed it returns -1 and
counts one error. -/
theorem quoted_string_before_newline :
    start (first_line (zone "t TXT \"hello; world (x)\"\n") (str "zone") (str "."))
      = Outcome.ok
          (some ⟨-1, [some (str "t"), some (str "TXT"), some (str "hello; world (x)"),
                      some []], 1⟩)
          ⟨0, [⟨"truncated line, possibly insufficient buffer size", str "zone", 1⟩]⟩ ∧
    start (first_line (zone "t TXT \"hello; world (x)\";\n") (str "zone") (str "."))
      = Outcome.ok
          (some ⟨3, [some (str "t"), some (str "TXT"), some (str "hello; world (x)")], 0⟩)
          World.init ∧
    start (first_line (zone "t TXT \"hello\n") (str "zone") (str "."))
      = Outcome.ok (some ⟨-1, [some (str "t"), some (str "TXT")], 1⟩)
          ⟨0, [⟨"unterminated quoted string", str "zone", 1⟩]⟩ := by
  decide!

/-- C13, the code on a NULL record that follows a record with rdata: for the
lines `w A 1.2.3.4`, `x MX 10` and `y NULL`, `main` reads the record of `x`
with one field and the sentinel behind it, and then the record of `y`, of type
NULL, with the same field list: one field, and the sentinel at index 1.  The
line of `w` is parsed and dropped, and the loop that frees its rdata leaves
`_rc` at -1: the run is the same in a process whose fresh parser has 0 in the
field `_rc`, which `_zopen` does not set, and in one that has -1 there. -/
theorem null_record_keeps_fields :
    start (main (with_rc0 0 (zone "w A 1.2.3.4\nx MX 10\ny NULL\n")) 10 (str "zone") (str "."))
      = Outcome.ok
          (some ⟨[⟨sample_strdname (str "x") (some ROOT), 3600, CLASS_IN, TYPE_MX,
                    [some (rdata_t.blob 2 [10, 0]), none]⟩,
                  ⟨sample_strdname (str "y") (some ROOT), 3600, CLASS_IN, TYPE_NULL,
                    [some (rdata_t.blob 2 [10, 0]), none]⟩], 1⟩)
          ⟨0, [⟨"unexpected end of line", str "zone", 2⟩]⟩ ∧
    start (main (with_rc0 (-1) (zone "w A 1.2.3.4\nx MX 10\ny NULL\n")) 10 (str "zone")
        (str "."))
      = Outcome.ok
          (some ⟨[⟨sample_strdname (str "x") (some ROOT), 3600, CLASS_IN, TYPE_MX,
                    [some (rdata_t.blob 2 [10, 0]), none]⟩,
                  ⟨sample_strdname (str "y") (some ROOT), 3600, CLASS_IN, TYPE_NULL,
                    [some (rdata_t.blob 2 [10, 0]), none]⟩], 1⟩)
          ⟨0, [⟨"unexpected end of line", str "zone", 2⟩]⟩ := by
  decide!

/-- C14, the code on an HINFO record with two rdata tokens: for the line
`h HINFO cpu os`, `zrdata` returns 1 with one field in the list, made from the
token `cpu`, and the token counter one up, on the token `os`. -/
theorem hinfo_one_field :
    start (run_rdata (zone "h HINFO cpu os\n") (str "zone") (str ".") zrdata)
      = Outcome.ok (some ⟨1, [some (rdata_t.blob 4 [3, 0, 99, 112])], 3, 0, 0⟩) World.init := by
  decide!

/-- C15, runs against the claim as stated.  For the line
`s SOA \# root 1 2 3 4 5`, whose first rdata token the name encoder accepts,
`zrdata` returns 0 with no field appended and the token counter where it was;
and on the line `s SOA ns root 1 2 3 4 5` with the rdata counter at 60 of the
64 of `MAXRDATALEN`, `zrdata` ends in `abort()`. -/
theorem soa_unknown_format_and_full_list :
    sample_strdname (str "\\#") (some ROOT) = some [4, 2, 92, 35, 0] ∧
    start (run_rdata (zone "s SOA \\# root 1 2 3 4 5\n") (str "zone") (str ".") zrdata)
      = Outcome.ok (some ⟨0, [], 2, -1, 0⟩) World.init ∧
    start (observe (zrdata (zone "s SOA ns root 1 2 3 4 5\n")
        { rdata_state (zone "s SOA ns root 1 2 3 4 5\n") (str "zone") (str ".")
          with _rc := 60 }))
      = Outcome.fault Fault.abort := by
  decide!

/-- C15 as amended, for a parser on an SOA record whose rdata list has room
for seven more elements.  When the seven tokens from the token counter on are
two names the encoder accepts, the first of them not empty and not `\#`, and
five decimal numerals, `zrdata` returns 1, the parser has the seven elements
appended in token order, two names and five elements of length 4 made of the
values of `strtol`, the token counter and the rdata counter are seven up, and
nothing is written to `stderr`.  When there is a token at the token counter
and one of the six places behind it holds no token, `zrdata` returns 0. -/
theorem soa_seven_fields (env : Env) (z : zparser) (w : World)
    (ht : z._rr.type = TYPE_SOA) (hroom : Room env z 7) :
    (∀ n1 n2 s1 s2 s3 s4 s5 d1 d2 : List Nat,
      z.tok z._tc = some n1 → z.tok (z._tc + 1) = some n2 → z.tok (z._tc + 2) = some s1 →
      z.tok (z._tc + 3) = some s2 → z.tok (z._tc + 4) = some s3 →
      z.tok (z._tc + 5) = some s4 → z.tok (z._tc + 6) = some s5 →
      n1 ≠ [] → n1 ≠ str "\\#" →
      env.strdname n1 z.origin = some d1 → env.strdname n2 z.origin = some d2 →
      Numeral s1 → Numeral s2 → Numeral s3 → Numeral s4 → Numeral s5 →
      ∃ z' w', zrdata env z w = Except.ok ((z', 1), w') ∧
        z' = z.pushes [rdata_t.dname d1, rdata_t.dname d2, long_field env s1, long_field env s2,
          long_field env s3, long_field env s4, long_field env s5] ∧
        z'._tc = z._tc + 7 ∧ z'._rc = z._rc + 7 ∧ z'.errors = z.errors ∧
        w'.stderr = w.stderr) ∧
    (∀ k, k < 7 → z.tok z._tc ≠ none → z.tok (z._tc + k) = none →
      ∃ z' w', zrdata env z w = Except.ok ((z', 0), w')) := by
  refine ⟨?_, ?_⟩
  · intro n1 n2 s1 s2 s3 s4 s5 d1 d2 h1 h2 h3 h4 h5 h6 h7 hn1 hn1' hd1 hd2 q1 q2 q3 q4 q5
    have hh : ¬ n1.headD 0 = 0 := tok_head h1 hn1
    have hx : ¬ z.tok z._tc = some (str "\\#") := by
      rw [h1]
      exact fun h => hn1' (Option.some.inj h)
    have r6 := fun e1 => @room_push env z 6 e1 hroom
    have r5 := fun e1 e2 => room_push e2 (r6 e1)
    have r4 := fun e1 e2 e3 => room_push e3 (r5 e1 e2)
    have r3 := fun e1 e2 e3 e4 => room_push e4 (r4 e1 e2 e3)
    have r2 := fun e1 e2 e3 e4 e5 => room_push e5 (r3 e1 e2 e3 e4)
    have r1 := fun e1 e2 e3 e4 e5 e6 => room_push e6 (r2 e1 e2 e3 e4 e5)
    have key : zrdata env z w = Except.ok
        ((z.pushes [rdata_t.dname d1, rdata_t.dname d2, long_field env s1, long_field env s2,
          long_field env s3, long_field env s4, long_field env s5], 1),
        strtol_world env s5 (strtol_world env s4 (strtol_world env s3
          (strtol_world env s2 (strtol_world env s1 w))))) := by
      unfold zrdata
      rw [run_bind_ok (run_deref h1 w)]
      rw [if_neg hh, if_neg hx, if_neg (by rw [ht]; decide), if_neg (by rw [ht]; decide),
        if_neg (by rw [ht]; decide), if_neg (by rw [ht]; decide), if_pos ht]
      refine (orReturn0_ok (zrdata_dname_ok env _ _ n1 d1 ?_ ?_ ?_)).trans ?_
      · exact h1
      · exact hd1
      · exact room_one hroom
      refine (orReturn0_ok (zrdata_dname_ok env _ _ n2 d2 ?_ ?_ ?_)).trans ?_
      · exact h2
      · exact hd2
      · exact room_one (r6 _)
      refine (orReturn0_ok (zrdata_long_ok env _ _ s1 ?_ ?_ ?_)).trans ?_
      · exact h3
      · exact strtol_numeral_rest _ _ q1
      · exact room_one (r5 _ _)
      refine (orReturn0_ok (zrdata_long_ok env _ _ s2 ?_ ?_ ?_)).trans ?_
      · exact h4
      · exact strtol_numeral_rest _ _ q2
      · exact room_one (r4 _ _ _)
      refine (orReturn0_ok (zrdata_long_ok env _ _ s3 ?_ ?_ ?_)).trans ?_
      · exact h5
      · exact strtol_numeral_rest _ _ q3
      · exact room_one (r3 _ _ _ _)
      refine (orReturn0_ok (zrdata_long_ok env _ _ s4 ?_ ?_ ?_)).trans ?_
      · exact h6
      · exact strtol_numeral_rest _ _ q4
      · exact room_one (r2 _ _ _ _ _)
      refine (zrdata_long_ok env _ _ s5 ?_ ?_ ?_).trans ?_
      · exact h7
      · exact strtol_numeral_rest _ _ q5
      · exact r1 _ _ _ _ _ _
      rfl
    refine ⟨_, _, key, rfl, rfl, ?_, rfl, ?_⟩
    · show z._rc + 1 + 1 + 1 + 1 + 1 + 1 + 1 = z._rc + 7
      omega
    · simp only [strtol_world_stderr]
  · intro k hk h0 hnone
    obtain ⟨a, w', hr, hran⟩ := returns_elim (soa_ran env z w ht hroom h0)
    obtain ⟨z', r⟩ := a
    cases hran with
    | inl h =>
      have h : r = 0 := h
      subst h
      exact ⟨z', w', hr⟩
    | inr h => exact absurd hnone (h.2 k hk)

/-- C15 as amended, on the lines `s SOA ns root 1 2 3 4 5` and
`s SOA ns root 1 2 3 4`: for the first `zrdata` returns 1 with seven elements,
the token counter 7 up at 9 and the rdata counter 7 up at 6; for the second it
returns 0. -/
theorem soa_seven_fields_witness :
    (rdata_state (zone "s SOA ns root 1 2 3 4 5\n") (str "zone") (str "."))._rr.type = TYPE_SOA ∧
    Room (zone "s SOA ns root 1 2 3 4 5\n")
      (rdata_state (zone "s SOA ns root 1 2 3 4 5\n") (str "zone") (str ".")) 7 ∧
    (∃ z' w', zrdata (zone "s SOA ns root 1 2 3 4 5\n")
        (rdata_state (zone "s SOA ns root 1 2 3 4 5\n") (str "zone") (str ".")) World.init
          = Except.ok ((z', 1), w') ∧
        z' = (rdata_state (zone "s SOA ns root 1 2 3 4 5\n") (str "zone") (str ".")).pushes
          [rdata_t.dname [4, 2, 110, 115, 0], rdata_t.dname [6, 4, 114, 111, 111, 116, 0],
           long_field (zone "s SOA ns root 1 2 3 4 5\n") (str "1"),
           long_field (zone "s SOA ns root 1 2 3 4 5\n") (str "2"),
           long_field (zone "s SOA ns root 1 2 3 4 5\n") (str "3"),
           long_field (zone "s SOA ns root 1 2 3 4 5\n") (str "4"),
           long_field (zone "s SOA ns root 1 2 3 4 5\n") (str "5")] ∧
        z'._tc = (rdata_state (zone "s SOA ns root 1 2 3 4 5\n") (str "zone") (str "."))._tc + 7 ∧
        z'._rc = (rdata_state (zone "s SOA ns root 1 2 3 4 5\n") (str "zone") (str "."))._rc + 7 ∧
        z'.errors
          = (rdata_state (zone "s SOA ns root 1 2 3 4 5\n") (str "zone") (str ".")).errors ∧
        w'.stderr = World.init.stderr) ∧
    start (run_rdata (zone "s SOA ns root 1 2 3 4 5\n") (str "zone") (str ".") zrdata)
      = Outcome.ok
          (some ⟨1, [some (rdata_t.dname [4, 2, 110, 115, 0]),
                     some (rdata_t.dname [6, 4, 114, 111, 111, 116, 0]),
                     some (rdata_t.blob 4 [1, 0, 0, 0]), some (rdata_t.blob 4 [2, 0, 0, 0]),
                     some (rdata_t.blob 4 [3, 0, 0, 0]), some (rdata_t.blob 4 [4, 0, 0, 0]),
                     some (rdata_t.blob 4 [5, 0, 0, 0])], 9, 6, 0⟩)
          World.init ∧
    (∃ z' w', zrdata (zone "s SOA ns root 1 2 3 4\n")
        (rdata_state (zone "s SOA ns root 1 2 3 4\n") (str "zone") (str ".")) World.init
          = Except.ok ((z', 0), w')) :=
  ⟨by decide!, by unfold Room; decide!,
   (soa_seven_fields (zone "s SOA ns root 1 2 3 4 5\n")
      (rdata_state (zone "s SOA ns root 1 2 3 4 5\n") (str "zone") (str ".")) World.init
      (by decide!) (by unfold Room; decide!)).1
      (str "ns") (str "root") (str "1") (str "2") (str "3") (str "4") (str "5")
      [4, 2, 110, 115, 0] [6, 4, 114, 111, 111, 116, 0]
      (by decide!) (by decide!) (by decide!) (by decide!) (by decide!) (by decide!) (by decide!)
      (by decide!) (by decide!) (by decide!) (by decide!)
      (by unfold Numeral; decide!) (by unfold Numeral; decide!) (by unfold Numeral; decide!)
      (by unfold Numeral; decide!) (by unfold Numeral; decide!),
   by decide!,
   (soa_seven_fields (zone "s SOA ns root 1 2 3 4\n")
      (rdata_state (zone "s SOA ns root 1 2 3 4\n") (str "zone") (str ".")) World.init
      (by decide!) (by unfold Room; decide!)).2 6 (by decide) (by decide!) (by decide!)⟩

/-- C16, the code at the witness of the claim: for the token
`hello; world (x)` of 16 bytes, `zrdata_text` appends a field with length
prefix 17 whose bytes are the length octet 16, a byte that was not written
(0 in the sample environment) and the first 15 bytes of the token; the last
byte `)` is not in the field. -/
theorem text_field_is_shifted :
    start (run_rdata (zone "t TXT \"hello; world (x)\";\n") (str "zone") (str ".") zrdata_text)
      = Outcome.ok
          (some ⟨1, [some (rdata_t.blob 17 (16 :: 0 :: str "hello; world (x"))], 3, 0, 0⟩)
          World.init := by
  decide!

/-- C18, the code on a TXT record with one rdata token: for the line
`t TXT hello`, `zrdata` ends in an invalid access, the read through the
end-of-tokens sentinel after the first text, and so does `main`. -/
theorem txt_reads_through_sentinel :
    start (run_rdata (zone "t TXT hello\n") (str "zone") (str ".") zrdata)
      = Outcome.fault Fault.segv ∧
    start (main (zone "t TXT hello\n") 10 (str "zone") (str ".")) = Outcome.fault Fault.segv := by
  decide!

/-- C19, the code at the witness of the claim: in the sample environment, whose
host stores the least significant byte first, the token `10` of the line
`x MX 10` gives the bytes 0A 00 as a short and 0A 00 00 00 as a long, not
00 0A and 00 00 00 0A. -/
theorem short_in_host_order :
    start (run_rdata (zone "x MX 10\n") (str "zone") (str ".") zrdata_short)
      = Outcome.ok (some ⟨1, [some (rdata_t.blob 2 [10, 0])], 3, 0, 0⟩) World.init ∧
    start (run_rdata (zone "x MX 10\n") (str "zone") (str ".") zrdata_long)
      = Outcome.ok (some ⟨1, [some (rdata_t.blob 4 [10, 0, 0, 0])], 3, 0, 0⟩) World.init := by
  decide!

/-- The decimal parsers on every host, for a parser whose rdata list has room
for one more element and whose token is a decimal numeral with a value `v`
that `strtol` can give (at most `LONG_MAX`).  When `v` fits the field,
`zrdata_short`, `zrdata_long` and `zrdata_byte` return 1 and append an element
with length prefix 2, 4 and 1 that holds `v` as the host stores it: most
significant byte first on a host with that byte order, least significant byte
first otherwise, since the value is stored without `htons` or `htonl`. -/
theorem decimal_fields_in_host_order (env : Env) (z : zparser) (w : World) (s : List Nat)
    (hs : z.tok z._tc = some s) (hn : Numeral s) (hl : decimal s ≤ env.LONG_MAX)
    (hroom : Room env z 1) :
    (decimal s < 2 ^ 16 → zrdata_short env z w
      = Except.ok ((z.push (rdata_t.blob 2 (host_bytes env 2 (decimal s))), 1), w)) ∧
    (decimal s < 2 ^ 32 → zrdata_long env z w
      = Except.ok ((z.push (rdata_t.blob 4 (host_bytes env 4 (decimal s))), 1), w)) ∧
    (decimal s < 2 ^ 8 → zrdata_byte env z w
      = Except.ok ((z.push (rdata_t.blob 1 (host_bytes env 1 (decimal s))), 1), w)) ∧
    (env.bigEndian = true →
      ∀ n, host_bytes env n (decimal s) = (bytes_le n (decimal s)).reverse) ∧
    (env.bigEndian = false → ∀ n, host_bytes env n (decimal s) = bytes_le n (decimal s)) := by
  have ht := strtol_numeral_rest env.LONG_MAX s hn
  have hv : (strtol env.LONG_MAX s).1 = (decimal s : Int) := by
    rw [strtol_numeral_le _ s hn hl]
  have hw := strtol_world_le env s w hn hl
  refine ⟨fun h => ?_, fun h => ?_, fun h => ?_, fun h n => ?_, fun h n => ?_⟩
  · rw [zrdata_short_ok env z w s hs ht hroom, hw, hv]
    have : ((decimal s : Int) % 2 ^ 16).toNat = decimal s := by omega
    rw [this]
  · rw [zrdata_long_ok env z w s hs ht hroom, hw]
    unfold long_field
    rw [hv]
    have : ((decimal s : Int) % 2 ^ 32).toNat = decimal s := by omega
    rw [this]
  · rw [zrdata_byte_ok env z w s hs ht hroom, hw, hv]
    have : ((decimal s : Int) % 2 ^ 8).toNat = decimal s := by omega
    rw [this]
  · unfold host_bytes
    rw [if_pos h]
  · unfold host_bytes
    rw [if_neg (by simp [h])]

/-- The decimal parsers on the token `10` of the line `x MX 10` in the sample
environment, whose host stores the least significant byte first: the short is
the two bytes 0A 00, the long the four bytes 0A 00 00 00 and the byte the one
byte 0A. -/
theorem decimal_fields_in_host_order_witness :
    (rdata_state (zone "x MX 10\n") (str "zone") (str ".")).tok
        (rdata_state (zone "x MX 10\n") (str "zone") (str "."))._tc = some (str "10") ∧
    Numeral (str "10") ∧ decimal (str "10") = 10 ∧
    Room (zone "x MX 10\n") (rdata_state (zone "x MX 10\n") (str "zone") (str ".")) 1 ∧
    host_bytes (zone "x MX 10\n") 2 (decimal (str "10")) = [10, 0] ∧
    host_bytes (zone "x MX 10\n") 4 (decimal (str "10")) = [10, 0, 0, 0] ∧
    host_bytes (zone "x MX 10\n") 1 (decimal (str "10")) = [10] ∧
    zrdata_short (zone "x MX 10\n") (rdata_state (zone "x MX 10\n") (str "zone") (str "."))
        World.init
      = Except.ok (((rdata_state (zone "x MX 10\n") (str "zone") (str ".")).push
          (rdata_t.blob 2 (host_bytes (zone "x MX 10\n") 2 (decimal (str "10")))), 1),
          World.init) ∧
    zrdata_long (zone "x MX 10\n") (rdata_state (zone "x MX 10\n") (str "zone") (str "."))
        World.init
      = Except.ok (((rdata_state (zone "x MX 10\n") (str "zone") (str ".")).push
          (rdata_t.blob 4 (host_bytes (zone "x MX 10\n") 4 (decimal (str "10")))), 1),
          World.init) ∧
    zrdata_byte (zone "x MX 10\n") (rdata_state (zone "x MX 10\n") (str "zone") (str "."))
        World.init
      = Except.ok (((rdata_state (zone "x MX 10\n") (str "zone") (str ".")).push
          (rdata_t.blob 1 (host_bytes (zone "x MX 10\n") 1 (decimal (str "10")))), 1),
          World.init) :=
  ⟨by decide!, by unfold Numeral; decide!, by decide!, by unfold Room; decide!, by decide!,
   by decide!, by decide!,
   (decimal_fields_in_host_order (zone "x MX 10\n")
      (rdata_state (zone "x MX 10\n") (str "zone") (str ".")) World.init (str "10")
      (by decide!) (by unfold Numeral; decide!) (by decide!) (by unfold Room; decide!)).1
      (by decide!),
   (decimal_fields_in_host_order (zone "x MX 10\n")
      (rdata_state (zone "x MX 10\n") (str "zone") (str ".")) World.init (str "10")
      (by decide!) (by unfold Numeral; decide!) (by decide!) (by unfold Room; decide!)).2.1
      (by decide!),
   (decimal_fields_in_host_order (zone "x MX 10\n")
      (rdata_state (zone "x MX 10\n") (str "zone") (str ".")) World.init (str "10")
      (by decide!) (by unfold Numeral; decide!) (by decide!) (by unfold Room; decide!)).2.2.1
      (by decide!)⟩

/-- C20, the code at the witness of the claim: for the line `l LOC 52 22 N`,
with a decoder that accepts the string `52 22 N` only, `zrdata_loc` returns 0
and counts an error; with a decoder that accepts the string `5222N` only, it
returns 1 and appends the field.  In both runs the token counter ends on the
sentinel, at index 5. -/
theorem loc_tokens_pasted_without_blanks :
    start (run_rdata (locEnv (str "52 22 N") [(str "zone", str "l LOC 52 22 N\n")]) (str "zone")
        (str ".") zrdata_loc)
      = Outcome.ok (some ⟨0, [], 5, -1, 1⟩)
          ⟨0, [⟨"LOC record data expected", str "zone", 1⟩]⟩ ∧
    start (run_rdata (locEnv (str "5222N") [(str "zone", str "l LOC 52 22 N\n")]) (str "zone")
        (str ".") zrdata_loc)
      = Outcome.ok (some ⟨1, [some (rdata_t.blob LOCRDLEN (List.replicate 16 0))], 5, 0, 0⟩)
          World.init := by
  decide!

/-- C21: for a string of groups `d1 u1 ... dk uk`, each a decimal numeral and a
unit letter `s`, `m`, `h`, `d` or `w` in either case, followed by a decimal
numeral `d` or by nothing, whose sum of seconds is at most `LONG_MAX`,
`strtottl` returns the sum of the values of the numerals times the multipliers
of their units plus the value of `d`, with the end pointer at the end of the
string: in the arithmetic of a `long` no value overflows and the result is
that sum, and so it is in the exact arithmetic of the model that `zread`
uses. -/
theorem strtottl_period (L : Nat) (gs : List (List Nat × Nat)) (d : List Nat)
    (hg : ∀ g ∈ gs, Numeral g.1 ∧ TimeUnit g.2) (hd : d = [] ∨ Numeral d)
    (hl : period_seconds gs d ≤ L) :
    strtottl_long L (period gs d) = some ((period_seconds gs d : Int), []) ∧
    strtottl (period gs d) = ((period_seconds gs d : Int), []) := by
  have hd' : ∀ c ∈ d, isdigit c = true := by
    cases hd with
    | inl h => subst h; intro c hc; exact absurd hc (List.not_mem_nil c)
    | inr h => exact h.2
  exact ⟨strtottl_period_long L gs d hg hd' hl, strtottl_period_exact gs d hg hd'⟩

/-- C21 on the strings `1w`, `7d` and `168h`, which give 604800, on `1h30m`,
which gives 5400, on the bare integer `3600`, which gives its value, and on
`1H30M15`, which gives 5415, for a `long` of 32 bits. -/
theorem strtottl_period_witness :
    period [(str "1", ch 'w')] [] = str "1w" ∧
    period_seconds [(str "1", ch 'w')] [] = 604800 ∧
    (strtottl_long 2147483647 (period [(str "1", ch 'w')] [])
        = some ((period_seconds [(str "1", ch 'w')] [] : Int), []) ∧
      strtottl (period [(str "1", ch 'w')] [])
        = ((period_seconds [(str "1", ch 'w')] [] : Int), [])) ∧
    period [(str "7", ch 'd')] [] = str "7d" ∧
    period_seconds [(str "7", ch 'd')] [] = 604800 ∧
    (strtottl_long 2147483647 (period [(str "7", ch 'd')] [])
        = some ((period_seconds [(str "7", ch 'd')] [] : Int), []) ∧
      strtottl (period [(str "7", ch 'd')] [])
        = ((period_seconds [(str "7", ch 'd')] [] : Int), [])) ∧
    period [(str "168", ch 'h')] [] = str "168h" ∧
    period_seconds [(str "168", ch 'h')] [] = 604800 ∧
    (strtottl_long 2147483647 (period [(str "168", ch 'h')] [])
        = some ((period_seconds [(str "168", ch 'h')] [] : Int), []) ∧
      strtottl (period [(str "168", ch 'h')] [])
        = ((period_seconds [(str "168", ch 'h')] [] : Int), [])) ∧
    period [(str "1", ch 'h'), (str "30", ch 'm')] [] = str "1h30m" ∧
    period_seconds [(str "1", ch 'h'), (str "30", ch 'm')] [] = 5400 ∧
    (strtottl_long 2147483647 (period [(str "1", ch 'h'), (str "30", ch 'm')] [])
        = some ((period_seconds [(str "1", ch 'h'), (str "30", ch 'm')] [] : Int), []) ∧
      strtottl (period [(str "1", ch 'h'), (str "30", ch 'm')] [])
        = ((period_seconds [(str "1", ch 'h'), (str "30", ch 'm')] [] : Int), [])) ∧
    period [] (str "3600") = str "3600" ∧
    period_seconds [] (str "3600") = 3600 ∧
    (strtottl_long 2147483647 (period [] (str "3600"))
        = some ((period_seconds [] (str "3600") : Int), []) ∧
      strtottl (period [] (str "3600"))
        = ((period_seconds [] (str "3600") : Int), [])) ∧
    period [(str "1", ch 'H'), (str "30", ch 'M')] (str "15") = str "1H30M15" ∧
    period_seconds [(str "1", ch 'H'), (str "30", ch 'M')] (str "15") = 5415 ∧
    (strtottl_long 2147483647 (period [(str "1", ch 'H'), (str "30", ch 'M')] (str "15"))
        = some ((period_seconds [(str "1", ch 'H'), (str "30", ch 'M')] (str "15") : Int), []) ∧
      strtottl (period [(str "1", ch 'H'), (str "30", ch 'M')] (str "15"))
        = ((period_seconds [(str "1", ch 'H'), (str "30", ch 'M')] (str "15") : Int), [])) :=
  ⟨by decide!, by decide!,
   strtottl_period 2147483647 [(str "1", ch 'w')] []
     (by unfold Numeral TimeUnit; decide!) (Or.inl rfl) (by decide!),
   by decide!, by decide!,
   strtottl_period 2147483647 [(str "7", ch 'd')] []
     (by unfold Numeral TimeUnit; decide!) (Or.inl rfl) (by decide!),
   by decide!, by decide!,
   strtottl_period 2147483647 [(str "168", ch 'h')] []
     (by unfold Numeral TimeUnit; decide!) (Or.inl rfl) (by decide!),
   by decide!, by decide!,
   strtottl_period 2147483647 [(str "1", ch 'h'), (str "30", ch 'm')] []
     (by unfold Numeral TimeUnit; decide!) (Or.inl rfl) (by decide!),
   by decide!, by decide!,
   strtottl_period 2147483647 [] (str "3600")
     (by unfold Numeral TimeUnit; decide!) (Or.inr (by unfold Numeral; decide!)) (by decide!),
   by decide!, by decide!,
   strtottl_period 2147483647 [(str "1", ch 'H'), (str "30", ch 'M')] (str "15")
     (by unfold Numeral TimeUnit; decide!) (Or.inr (by unfold Numeral; decide!)) (by decide!)⟩

/-- C22, the code on an indented line behind a `$ORIGIN` directive: for the
lines `good NULL`, `$ORIGIN example.com.` and ` NULL`, `main` reads the record
of `good` only, and the indented line counts the error of a missing domain
name; with the directive `$TTL 5` in the place of `$ORIGIN` the indented line
gives a second record with the owner of `good`. -/
theorem origin_directive_drops_owner :
    start (main (zone "good NULL\n$ORIGIN example.com.\n NULL\n") 10 (str "zone") (str "."))
      = Outcome.ok
          (some ⟨[⟨sample_strdname (str "good") (some ROOT), 3600, CLASS_IN, TYPE_NULL, []⟩], 1⟩)
          ⟨0, [⟨"missing domain name", str "zone", 3⟩]⟩ ∧
    start (main (zone "good NULL\n$TTL 5\n NULL\n") 10 (str "zone") (str "."))
      = Outcome.ok
          (some ⟨[⟨sample_strdname (str "good") (some ROOT), 3600, CLASS_IN, TYPE_NULL, []⟩,
                  ⟨sample_strdname (str "good") (some ROOT), 5, CLASS_IN, TYPE_NULL, []⟩], 1⟩)
          ⟨0, [⟨"invalid or missing ttl value", str "zone", 2⟩]⟩ := by
  decide!

/-- C23, the code on two records with rdata yielded one after the other: for
the lines `w A 1.2.3.4`, `x MX 10` and `y MX 20`, `main` reads the record of
`x` with the field of `10`, and then the record of `y` with the field of `10`
at index 0, in front of its own field of `20`.  The line of `w` is parsed and
dropped, and the loop that frees its rdata leaves `_rc` at -1: the run is the
same in a process whose fresh parser has 0 in the field `_rc`, which `_zopen`
does not set, and in one that has -1 there. -/
theorem fields_of_earlier_record_stay :
    start (main (with_rc0 0 (zone "w A 1.2.3.4\nx MX 10\ny MX 20\n")) 10 (str "zone") (str "."))
      = Outcome.ok
          (some ⟨[⟨sample_strdname (str "x") (some ROOT), 3600, CLASS_IN, TYPE_MX,
                    [some (rdata_t.blob 2 [10, 0]), none]⟩,
                  ⟨sample_strdname (str "y") (some ROOT), 3600, CLASS_IN, TYPE_MX,
                    [some (rdata_t.blob 2 [10, 0]), some (rdata_t.blob 2 [20, 0]), none]⟩], 2⟩)
          ⟨0, [⟨"unexpected end of line", str "zone", 2⟩,
               ⟨"unexpected end of line", str "zone", 3⟩]⟩ ∧
    start (main (with_rc0 (-1) (zone "w A 1.2.3.4\nx MX 10\ny MX 20\n")) 10 (str "zone")
        (str "."))
      = Outcome.ok
          (some ⟨[⟨sample_strdname (str "x") (some ROOT), 3600, CLASS_IN, TYPE_MX,
                    [some (rdata_t.blob 2 [10, 0]), none]⟩,
                  ⟨sample_strdname (str "y") (some ROOT), 3600, CLASS_IN, TYPE_MX,
                    [some (rdata_t.blob 2 [10, 0]), some (rdata_t.blob 2 [20, 0]), none]⟩], 2⟩)
          ⟨0, [⟨"unexpected end of line", str "zone", 2⟩,
               ⟨"unexpected end of line", str "zone", 3⟩]⟩ := by
  decide!

end Zparser
